import Mathlib

/-!
# AtticaManager: resolver package lifecycle

A shallow embedding of `src/libtomahawk/AtticaManager.cpp` (Tomahawk Player).

The controller object, the file system it touches and the collaborators it
calls are flattened into one `World` record.  Every signal that is emitted and
every call that leaves the controller (settings store, catalog provider,
network, account manager, `removeDirectory`) is appended, in program order,
to `World.trace`.

Conventions
* `QString` is embedded as `String`; the null `QString` is identified with `""`.
* `QHash< QString, Resolver >` is an association list read at its first match;
  `keys()` is the list of its keys in stored order (the iteration order of a
  `QHash` is unspecified, so every order is covered).
* `Q_ASSERT` aborts the process in a debug build and is compiled out otherwise;
  handlers containing one return `Option World`, `none` being the abort, and the
  build flavour is the `debug` field of `Config`.
* Paths are lists of components below the root; only `/`-separated Unix paths
  are covered, without symbolic links and without permission failures.
-/

namespace Tomahawk

/-! ## Data model -/

abbrev Bytes := List Nat

abbrev Path := List String

/-- Modelled from the spec: the enumeration `AtticaManager::ResolverState` is
declared in `AtticaManager.h`, which is not among the sources; the spec lists
its values as Uninstalled, Installing, Installed, NeedsUpgrade, Upgrading,
Failed. -/
inductive ResolverState where
  | Uninstalled
  | Installing
  | Installed
  | NeedsUpgrade
  | Upgrading
  | Failed
deriving DecidableEq, Repr

/-- Modelled from the spec: the record `AtticaManager::Resolver` is declared in
`AtticaManager.h`, which is not among the sources.  The fields are the ones the
source file reads and writes (`version`, `scriptPath`, `userRating`, `state`,
`pixmap`, `binary`, `pixmapDirty`); a `QPixmap*` is embedded as the optional
image data it points to. -/
structure Resolver where
  version : String
  scriptPath : String
  userRating : Int
  state : ResolverState
  pixmap : Option Bytes
  binary : Bool
  pixmapDirty : Bool
deriving DecidableEq, Repr

/-- Modelled from the spec: the default constructor `Resolver()` of the absent
header; the spec gives a new record state Uninstalled, user rating `-1`
(unset), no thumbnail, and the source sets `binary` explicitly for binary
packages only. -/
def Resolver.init : Resolver :=
  { version := "", scriptPath := "", userRating := -1, state := ResolverState.Uninstalled,
    pixmap := none, binary := false, pixmapDirty := false }

/-- An `Attica::Content` item, restricted to what the controller reads. -/
structure Content where
  id : String
  version : String
  rating : Int
  attributes : List (String × String)
  icons : List String
deriving DecidableEq, Repr

/-- The call `Content::attribute( key )`: the stored value, or the empty string. -/
def Content.attribute (c : Content) (key : String) : String :=
  match c.attributes.find? (fun kv => kv.1 = key) with
  | some kv => kv.2
  | none => ""

/-- The call `Content::setRating( v )` on a copy. -/
def Content.setRating (c : Content) (v : Int) : Content :=
  { c with rating := v }

/-- A resolver-type account of the account manager; `atticaId` is `none` for an
account that is not an `AtticaResolverAccount`. -/
structure Account where
  accountId : String
  atticaId : Option String
deriving DecidableEq, Repr

/-! ## The state hash -/

abbrev StateHash := List (String × Resolver)

/-- The call `QHash::contains`. -/
def StateHash.contains : StateHash → String → Bool
  | [], _ => false
  | (k, _) :: rest, id => if k = id then true else StateHash.contains rest id

/-- The call `QHash::value`: the stored record or a default-constructed one. -/
def StateHash.value : StateHash → String → Resolver
  | [], _ => Resolver.init
  | (k, r) :: rest, id => if k = id then r else StateHash.value rest id

/-- The call `QHash::insert`: replaces the record of an existing key. -/
def StateHash.insert : StateHash → String → Resolver → StateHash
  | [], id, r => [(id, r)]
  | (k, r0) :: rest, id, r =>
    if k = id then (k, r) :: rest else (k, r0) :: StateHash.insert rest id r

/-- The call `QHash::keys`. -/
def StateHash.keys (h : StateHash) : List String :=
  h.map (fun e => e.1)

/-- A read through the non-const `operator[]`: a missing key is inserted with a
default-constructed record. -/
def StateHash.touch (h : StateHash) (id : String) : StateHash :=
  if StateHash.contains h id then h else StateHash.insert h id Resolver.init

/-- An assignment through `operator[]`: `h[ id ].field = ...`. -/
def StateHash.modify (h : StateHash) (id : String) (f : Resolver → Resolver) : StateHash :=
  StateHash.insert h id (f (StateHash.value h id))

/-! ## Paths and the file system -/

/-- Splits at every `/`, keeping empty parts (`QString::split( "/" )`). -/
def splitSlash : List Char → List (List Char)
  | [] => [[]]
  | c :: cs =>
    if c = '/' then [] :: splitSlash cs
    else
      match splitSlash cs with
      | [] => [[c]]
      | h :: t => (c :: h) :: t

/-- The `/`-separated parts of a path string. -/
def splitPath (s : String) : List String :=
  (splitSlash s.data).map String.mk

/-- The test `QDir::isAbsolutePath` on Unix: the string starts with `/`. -/
def isAbsolutePath (s : String) : Bool :=
  match s.data with
  | c :: _ => decide (c = '/')
  | [] => false

/-- One step of path resolution: empty parts and `.` stay, `..` goes to the
parent (the root is its own parent), a name descends. -/
def stepPath (cur : Path) (comp : String) : Path :=
  if comp = "" ∨ comp = "." then cur
  else if comp = ".." then cur.dropLast
  else cur ++ [comp]

/-- Lexical resolution of a list of parts from a starting directory
(`QDir::cleanPath` applied to the joined path). -/
def cleanPath (start : Path) (comps : List String) : Path :=
  comps.foldl stepPath start

/-- The directory from which a path string is resolved: the root for an
absolute string, the given directory otherwise. -/
def pathStart (dir : Path) (s : String) : Path :=
  if isAbsolutePath s then [] else dir

/-- The path named by string `s` relative to directory `dir`
(`QDir::filePath` followed by `QDir::cleanPath`). -/
def resolvePath (dir : Path) (s : String) : Path :=
  cleanPath (pathStart dir s) (splitPath s)

/-- The string `QDir::absolutePath()` of a directory. -/
def absolutePath (p : Path) : String :=
  "/" ++ "/".intercalate p

/-- Substring test `QString::contains` (case sensitive). -/
def containsStr (hay needle : String) : Bool :=
  hay.data.tails.any (fun t => needle.data.isPrefixOf t)

inductive Node where
  | dir
  | file (data : Bytes)
deriving DecidableEq, Repr

/-- The file system: an association list from paths to nodes, read at the first
match, so that a new node is written by consing it in front. -/
abbrev FileSystem := List (Path × Node)

/-- First stored node of a path. -/
def FileSystem.find : FileSystem → Path → Option Node
  | [], _ => none
  | (q, n) :: rest, p => if q = p then some n else FileSystem.find rest p

/-- The node at a path; the root always is a directory. -/
def FileSystem.node (fs : FileSystem) (p : Path) : Option Node :=
  if p = [] then some Node.dir else FileSystem.find fs p

/-- The test `QDir::exists()`. -/
def FileSystem.isDir (fs : FileSystem) (p : Path) : Bool :=
  decide (FileSystem.node fs p = some Node.dir)

/-- Writes a node at a path. -/
def FileSystem.put (fs : FileSystem) (p : Path) (n : Node) : FileSystem :=
  (p, n) :: fs

/-- Creates the directories `done ++ [c₁]`, `done ++ [c₁, c₂]`, ... in turn, as
the loop of `QDir::mkpath` does: an existing directory is kept, an existing
file makes the call fail, a missing one is created. -/
def FileSystem.mkdirs (fs : FileSystem) (done : Path) : List String → Bool × FileSystem
  | [] => (true, fs)
  | c :: cs =>
    let chunk := done ++ [c]
    match FileSystem.node fs chunk with
    | some Node.dir => FileSystem.mkdirs fs chunk cs
    | some (Node.file _) => (false, fs)
    | none => FileSystem.mkdirs (FileSystem.put fs chunk Node.dir) chunk cs

/-- The call `dir.mkpath( s )`: fails on an empty string, otherwise creates the
cleaned path and all its missing parents. -/
def FileSystem.mkpath (fs : FileSystem) (dir : Path) (s : String) : Bool × FileSystem :=
  if s = "" then (false, fs) else FileSystem.mkdirs fs [] (resolvePath dir s)

/-- The call `dir.cd( s )` for a string `s` containing a `/`: the cleaned new
path if it exists as a directory. -/
def FileSystem.cd (fs : FileSystem) (dir : Path) (s : String) : Option Path :=
  if FileSystem.isDir fs (resolvePath dir s) then some (resolvePath dir s) else none

/-- The directories an open of `s` from `start` walks through, and the path it
ends at: `(visited, target)`. -/
def walkPath (start : Path) : List String → List Path × Path
  | [] => ([], start)
  | c :: cs =>
    let r := walkPath (stepPath start c) cs
    (start :: r.1, r.2)

/-- A part that names an entry (not empty, `.` or `..`). -/
def isPlainName (c : String) : Bool :=
  decide (¬ (c = "" ∨ c = "." ∨ c = ".."))

/-- The call `QFile( dir.absoluteFilePath( s ) ).open( WriteOnly )`: it succeeds
when the last part of `s` names an entry, every directory walked through
exists and the target is not a directory; the result is the target path. -/
def FileSystem.openWrite (fs : FileSystem) (dir : Path) (s : String) : Option Path :=
  let comps := splitPath s
  let w := walkPath (pathStart dir s) comps
  if (match comps.getLast? with
      | some c => isPlainName c
      | none => false)
      && w.1.all (fun d => FileSystem.isDir fs d)
      && !FileSystem.isDir fs w.2
  then some w.2 else none

/-- Modelled from the spec: `TomahawkUtils::removeDirectory` is not among the
sources; the spec has uninstall "delete the package's on-disk directory", so the
directory and everything below it is removed. -/
def FileSystem.removeDirectory (fs : FileSystem) (dir : Path) : FileSystem :=
  fs.filter (fun e => !(dir.isPrefixOf e.1))

/-- The test `QDir( dir/s ).exists()` on an uncleaned path string: every
directory walked through and the target itself are existing directories. -/
def FileSystem.existsDir (fs : FileSystem) (dir : Path) (s : String) : Bool :=
  let w := walkPath (pathStart dir s) (splitPath s)
  w.1.all (fun d => FileSystem.isDir fs d) && FileSystem.isDir fs w.2

/-- The call `QDir::absoluteFilePath( fn )` of a directory whose absolute path
string is `dirAbs`. -/
def absoluteFilePath (dirAbs : String) (fn : String) : String :=
  if isAbsolutePath fn then fn
  else if fn = "" then dirAbs
  else if dirAbs = "/" then dirAbs ++ fn
  else dirAbs ++ "/" ++ fn

/-! ## Collaborators, configuration and the world -/

/-- Everything observable that leaves the controller, in program order. -/
inductive Effect where
  | resolverStateChanged (id : String)
  | resolverInstalled (id : String)
  | resolverUninstalled (id : String)
  | resolversLoaded (resolvers : List Content)
  | setAtticaResolverStates (states : StateHash)
  | setAtticaResolverState (id : String) (state : ResolverState)
  | voteForContent (id : String) (rating : Nat)
  | requestCategories
  | downloadLink (resolverId : String) (createAccount : Bool)
  | getPayload (url : String) (resolverId : String) (createAccount : Bool)
  | getIcon (url : String) (resolverId : String)
  | queueUpgradeResolver (c : Content)
  | addAccount (a : Account)
  | settingsAddAccount (accountId : String)
  | removeAccount (a : Account)
  | removeDirectory (path : String)
deriving DecidableEq, Repr

/-- Build-time and environment parameters, and the helpers that live outside
the source file.

* `debug`: `Q_ASSERT` is active.
* `platform`: the string chosen by the `Q_OS_MAC` / `Q_OS_WIN` preprocessor
  branches of `binaryResolversList` (`"osx"`, `"win"`, or `""`).
* `appDataDir`: the directory `TomahawkUtils::appDataDir()`.
* `cwd`: the working directory of the process (what `QDir( "" )` denotes).
* `newerVersion`: `TomahawkUtils::newerVersion( oldVersion, newVersion )`.
* `createFromPath`: the account built by `ResolverAccountFactory::createFromPath`.
* `loadsAsPixmap`: whether a cached file decodes to a non-null `QPixmap`. -/
structure Config where
  debug : Bool
  platform : String
  appDataDir : Path
  cwd : Path
  newerVersion : String → String → Bool
  createFromPath : String → Account
  loadsAsPixmap : Bytes → Bool

/-- The controller fields (`m_resolvers`, `m_resolverStates`,
`m_resolverJobsLoaded`) together with the file system, the resolver-type
accounts of the account manager, and the trace of effects. -/
structure World where
  m_resolvers : List Content
  m_resolverStates : StateHash
  m_resolverJobsLoaded : Int
  fs : FileSystem
  accounts : List Account
  trace : List Effect
deriving DecidableEq, Repr

/-- A finished `ItemJob< DownloadItem >` with the two properties set on it by
`installResolver`; `failed` stands for `metadata().error() != NoError`. -/
structure DownloadJob where
  resolverId : String
  createAccount : Bool
  failed : Bool
  url : String
deriving DecidableEq, Repr

/-- One entry of a zip archive; `readable` is whether `QuaZipFile::open`
succeeds on it when no other entry is open. -/
structure ZipEntry where
  name : String
  data : Bytes
  readable : Bool
deriving DecidableEq, Repr

/-- A finished payload download.  `failed` stands for
`reply->error() != NoError`, `tempFileOpens` for the result of
`QTemporaryFile::open`, and `archive` is how QuaZip sees the downloaded bytes:
`none` when they cannot be opened as a zip file, the list of entries otherwise
(an empty list has no first file). -/
structure PayloadReply where
  resolverId : String
  createAccount : Bool
  failed : Bool
  tempFileOpens : Bool
  archive : Option (List ZipEntry)
deriving DecidableEq, Repr

/-- The relative directory of a package below the data directory:
`QString( "atticaresolvers/%1" ).arg( id )`. -/
def resolverDirName (id : String) : String :=
  "atticaresolvers/" ++ id

/-- The state after the constructor: nothing loaded, no job counted. -/
def World.construct (fs : FileSystem) (accounts : List Account) : World :=
  { m_resolvers := [], m_resolverStates := [], m_resolverJobsLoaded := 0,
    fs := fs, accounts := accounts, trace := [] }

/-! ## Accessors -/

/-- The method `AtticaManager::resolverForId`. -/
def resolverForId (w : World) (id : String) : Content :=
  match w.m_resolvers.find? (fun c => c.id = id) with
  | some c => c
  | none => { id := "", version := "", rating := 0, attributes := [], icons := [] }

/-- The method `AtticaManager::resolverState`. -/
def resolverState (w : World) (c : Content) : ResolverState :=
  if ¬ StateHash.contains w.m_resolverStates c.id then ResolverState.Uninstalled
  else (StateHash.value w.m_resolverStates c.id).state

/-- The method `AtticaManager::pathFromId`. -/
def pathFromId (w : World) (resolverId : String) : String :=
  if ¬ StateHash.contains w.m_resolverStates resolverId then ""
  else (StateHash.value w.m_resolverStates resolverId).scriptPath

/-- The method `AtticaManager::userHasRated`. -/
def userHasRated (w : World) (c : Content) : Bool :=
  decide ((StateHash.value w.m_resolverStates c.id).userRating ≠ -1)

/-! ## Rating -/

/-- The loop of `uploadRating`: the first registry entry with the given id gets
the rating, then the loop breaks. -/
def setFirstRating (id : String) (v : Int) : List Content → List Content
  | [] => []
  | x :: xs => if x.id = id then x.setRating v :: xs else x :: setFirstRating id v xs

/-- The cast `(uint)` of a C `int`. -/
def toUInt (v : Int) : Nat :=
  (v % 4294967296).toNat

/-- The method `AtticaManager::uploadRating`. -/
def uploadRating (w : World) (c : Content) : World :=
  let states := StateHash.modify w.m_resolverStates c.id
    (fun r => { r with userRating := c.rating })
  { w with
    m_resolverStates := states
    m_resolvers := setFirstRating c.id c.rating w.m_resolvers
    trace := w.trace ++ [Effect.setAtticaResolverStates states,
      Effect.voteForContent c.id (toUInt c.rating),
      Effect.resolverStateChanged c.id] }

/-! ## Catalog listing and reconciliation -/

/-- The method `AtticaManager::providerAdded`; `persisted` is what
`atticaResolverStates()` of the settings store returns. -/
def providerAdded (w : World) (providerName : String) (persisted : StateHash) : World :=
  if providerName = "Tomahawk Resolvers" then
    { w with
      m_resolvers := []
      m_resolverStates := persisted
      trace := w.trace ++ [Effect.requestCategories] }
  else w

/-- Whether the guessed directory of a package,
`<appDataDir>/atticaresolvers/<rId>`, exists on disk. -/
def resolverDirExists (cfg : Config) (fs : FileSystem) (rId : String) : Bool :=
  FileSystem.existsDir fs cfg.appDataDir (resolverDirName rId)

/-- The test of the sanity check of `resolversList` on one record: marked
Installed or NeedsUpgrade, not binary, and without a directory on disk. -/
def isStale (cfg : Config) (fs : FileSystem) (rId : String) (r : Resolver) : Bool :=
  decide (r.state = ResolverState.Installed ∨ r.state = ResolverState.NeedsUpgrade)
    && !r.binary && !resolverDirExists cfg fs rId

/-- One iteration of the sanity check of `resolversList`. -/
def sanityCheckAt (cfg : Config) (w : World) (rId : String) : World :=
  if isStale cfg w.fs rId (StateHash.value w.m_resolverStates rId) then
    { w with
      m_resolverStates := StateHash.modify w.m_resolverStates rId
        (fun r => { r with state := ResolverState.Uninstalled })
      trace := w.trace ++ [Effect.setAtticaResolverState rId ResolverState.Uninstalled] }
  else w

/-- The sanity check at the start of `resolversList`: the loop over
`m_resolverStates.keys()`. -/
def sanityCheck (cfg : Config) (w : World) : World :=
  (StateHash.keys w.m_resolverStates).foldl (sanityCheckAt cfg) w

/-- ASCII lower case of a character. -/
def lowerChar (c : Char) : Char :=
  if 65 ≤ c.toNat ∧ c.toNat ≤ 90 then Char.ofNat (c.toNat + 32) else c

/-- The name filter `*.png` of `QDir::entryList` (case insensitive). -/
def matchesPng (name : String) : Bool :=
  (".png".data).isSuffixOf (name.data.map lowerChar)

/-- The call `QFileInfo( name ).baseName()`: the name up to its first dot. -/
def baseName (name : String) : String :=
  String.mk (name.data.takeWhile (fun c => !decide (c = '.')))

/-- The call `cacheDir.entryList( "*.png", Files )`: the files directly in the
directory whose name matches, each once, with their contents.  The order in
which `QDir` lists them is taken to be the stored order. -/
def FileSystem.pngEntries (fs : FileSystem) (dir : Path) : List (String × Bytes) :=
  ((fs.map (fun e => e.1)).dedup).filterMap (fun p =>
    match p.getLast?, FileSystem.node fs p with
    | some name, some (Node.file data) =>
      if p.dropLast = dir ∧ matchesPng name then some (name, data) else none
    | _, _ => none)

/-- One iteration of the loop of `loadPixmapsFromCache`. -/
def loadPixmapAt (cfg : Config) (h : StateHash) (file : String × Bytes) : StateHash :=
  if ¬ StateHash.contains h (baseName file.1) then h
  else if cfg.loadsAsPixmap file.2 then
    StateHash.modify h (baseName file.1) (fun r => { r with pixmap := some file.2 })
  else h

/-- The method `AtticaManager::loadPixmapsFromCache`. -/
def loadPixmapsFromCache (cfg : Config) (w : World) : World :=
  match FileSystem.cd w.fs cfg.appDataDir "atticacache" with
  | none => w
  | some cacheDir =>
    { w with
      m_resolverStates :=
        (FileSystem.pngEntries w.fs cacheDir).foldl (loadPixmapAt cfg) w.m_resolverStates }

/-- One iteration of the second loop of `resolversList`: a record is created
for an unknown package, and an icon fetch is started when there is no pixmap
and the first icon has a URL. -/
def registerResolverAt (w : World) (resolver : Content) : World :=
  let states :=
    if ¬ StateHash.contains w.m_resolverStates resolver.id then
      StateHash.insert w.m_resolverStates resolver.id Resolver.init
    else w.m_resolverStates
  let fetch :=
    match (StateHash.value states resolver.id).pixmap, resolver.icons with
    | none, url :: _ => if url = "" then [] else [Effect.getIcon url resolver.id]
    | _, _ => []
  { w with m_resolverStates := states, trace := w.trace ++ fetch }

/-- The upgrade test of `syncServerData` for the record copy `r` against a
registry entry: `( r.state == Installed || r.state == NeedsUpgrade ) &&
!upstream.version().isEmpty()`, and then `newerVersion( r.version,
upstream.version() )`. -/
def upgradeDue (cfg : Config) (r : Resolver) (upstream : Content) : Bool :=
  decide (r.state = ResolverState.Installed ∨ r.state = ResolverState.NeedsUpgrade)
    && decide (upstream.version ≠ "")
    && cfg.newerVersion r.version upstream.version

/-- The rating overlay of `syncServerData` on a registry entry with the id of
the record: the user rating replaces the rating unless it is `-1`. -/
def overlayRating (userRating : Int) (upstream : Content) : Content :=
  if userRating ≠ -1 then upstream.setRating userRating else upstream

/-- The inner loop of `syncServerData` for one key `id`, whose record copy `r`
was taken before the loop.  Iteration `i` reads and writes registry element `i`
only, so the registry is rebuilt element by element; the state hash and the
trace are threaded through. -/
def syncInner (cfg : Config) (id : String) (r : Resolver) :
    List Content → StateHash → List Effect → List Content × StateHash × List Effect
  | [], h, tr => ([], h, tr)
  | upstream0 :: rest, h, tr =>
    if id ≠ upstream0.id then
      let out := syncInner cfg id r rest h tr
      (upstream0 :: out.1, out.2.1, out.2.2)
    else
      let upstream := overlayRating (StateHash.value h id).userRating upstream0
      if upgradeDue cfg r upstream = true then
        let out := syncInner cfg id r rest
          (StateHash.modify h id (fun x => { x with state := ResolverState.NeedsUpgrade }))
          (tr ++ [Effect.queueUpgradeResolver upstream])
        (upstream :: out.1, out.2.1, out.2.2)
      else
        let out := syncInner cfg id r rest h tr
        (upstream :: out.1, out.2.1, out.2.2)

/-- One iteration of the outer loop of `syncServerData`. -/
def syncServerDataAt (cfg : Config) (w : World) (id : String) : World :=
  let out := syncInner cfg id (StateHash.value w.m_resolverStates id)
    w.m_resolvers w.m_resolverStates w.trace
  { w with m_resolvers := out.1, m_resolverStates := out.2.1, trace := out.2.2 }

/-- The method `AtticaManager::syncServerData`. -/
def syncServerData (cfg : Config) (w : World) : World :=
  (StateHash.keys w.m_resolverStates).foldl (syncServerDataAt cfg) w

/-- The end of both listing handlers:
`if ( ++m_resolverJobsLoaded == 2 ) emit resolversLoaded( m_resolvers )`. -/
def countJob (w : World) : World :=
  let n := w.m_resolverJobsLoaded + 1
  if n = 2 then
    { w with m_resolverJobsLoaded := n, trace := w.trace ++ [Effect.resolversLoaded w.m_resolvers] }
  else { w with m_resolverJobsLoaded := n }

/-- The method `AtticaManager::resolversList`; `items` is `job->itemList()`. -/
def resolversList (cfg : Config) (w : World) (items : List Content) : World :=
  let w1 := { w with m_resolvers := w.m_resolvers ++ items }
  let w2 := sanityCheck cfg w1
  let w3 := loadPixmapsFromCache cfg w2
  let w4 := w3.m_resolvers.foldl registerResolverAt w3
  let w5 := syncServerData cfg w4
  countJob w5

/-- The test of `binaryResolversList` on a listed item: its `typeid` attribute
is not empty and equals the platform string of the build. -/
def isForPlatform (cfg : Config) (c : Content) : Bool :=
  decide (c.attribute "typeid" ≠ "" ∧ c.attribute "typeid" = cfg.platform)

/-- One iteration of the loop of `binaryResolversList`. -/
def binaryResolverAt (cfg : Config) (w : World) (c : Content) : World :=
  if isForPlatform cfg c = true then
    { w with
      m_resolvers := w.m_resolvers ++ [c]
      m_resolverStates :=
        if ¬ StateHash.contains w.m_resolverStates c.id then
          StateHash.insert w.m_resolverStates c.id { Resolver.init with binary := true }
        else w.m_resolverStates }
  else w

/-- The method `AtticaManager::binaryResolversList`. -/
def binaryResolversList (cfg : Config) (w : World) (binaryResolvers : List Content) : World :=
  countJob (binaryResolvers.foldl (binaryResolverAt cfg) w)

/-! ## Install, uninstall, upgrade -/

/-- The method `AtticaManager::installResolver`.  The assertion
`Q_ASSERT( !resolver.id().isNull() )` aborts a debug build. -/
def installResolver (cfg : Config) (w : World) (resolver : Content)
    (autoCreateAccount : Bool) : Option World :=
  if cfg.debug = true ∧ resolver.id = "" then none
  else
    let h0 := StateHash.touch w.m_resolverStates resolver.id
    let h1 :=
      if (StateHash.value h0 resolver.id).state ≠ ResolverState.Upgrading then
        StateHash.modify h0 resolver.id (fun r => { r with state := ResolverState.Installing })
      else h0
    let h2 := StateHash.modify h1 resolver.id
      (fun r => { r with scriptPath := resolver.attribute "mainscript" })
    let h3 := StateHash.modify h2 resolver.id (fun r => { r with version := resolver.version })
    some { w with
      m_resolverStates := h3
      trace := w.trace ++ [Effect.resolverStateChanged resolver.id,
        Effect.downloadLink resolver.id autoCreateAccount] }

/-- The method `AtticaManager::doResolverRemove`. -/
def doResolverRemove (cfg : Config) (w : World) (id : String) : World :=
  match FileSystem.cd w.fs cfg.appDataDir (resolverDirName id) with
  | none => w
  | some resolverDir =>
    if id = "" then w
    else if ¬ (containsStr (absolutePath resolverDir) "atticaresolvers" = true)
        ∨ ¬ (containsStr (absolutePath resolverDir) id = true) then w
    else
      { w with
        fs := FileSystem.removeDirectory w.fs resolverDir
        trace := w.trace ++ [Effect.removeDirectory (absolutePath resolverDir)] }

/-- The accounts that `uninstallResolver` removes: the attica resolver accounts
whose `atticaId()` is the given id. -/
def isAccountOf (id : String) (a : Account) : Bool :=
  decide (a.atticaId = some id)

/-- The method `AtticaManager::uninstallResolver( const Content& )`. -/
def uninstallResolver (cfg : Config) (w : World) (resolver : Content) : World :=
  let h0 := StateHash.touch w.m_resolverStates resolver.id
  if (StateHash.value h0 resolver.id).state ≠ ResolverState.Upgrading then
    doResolverRemove cfg
      { w with
        m_resolverStates := StateHash.modify h0 resolver.id
          (fun r => { r with state := ResolverState.Uninstalled })
        accounts := w.accounts.filter (fun a => !isAccountOf resolver.id a)
        trace := w.trace ++ [Effect.resolverUninstalled resolver.id,
          Effect.resolverStateChanged resolver.id,
          Effect.setAtticaResolverState resolver.id ResolverState.Uninstalled]
          ++ (w.accounts.filter (isAccountOf resolver.id)).map Effect.removeAccount }
      resolver.id
  else
    doResolverRemove cfg { w with m_resolverStates := h0 } resolver.id

/-- The first statements of `upgradeResolver` after its guard: the state is set
to Upgrading and the change is signalled. -/
def markUpgrading (w : World) (resolver : Content) : World :=
  { w with
    m_resolverStates := StateHash.modify w.m_resolverStates resolver.id
      (fun r => { r with state := ResolverState.Upgrading })
    trace := w.trace ++ [Effect.resolverStateChanged resolver.id] }

/-- The method `AtticaManager::upgradeResolver`.  Its two assertions abort a
debug build; otherwise a package that is unknown or not in NeedsUpgrade is left
alone. -/
def upgradeResolver (cfg : Config) (w : World) (resolver : Content) : Option World :=
  if cfg.debug = true ∧ ¬ (StateHash.contains w.m_resolverStates resolver.id = true
      ∧ (StateHash.value w.m_resolverStates resolver.id).state = ResolverState.NeedsUpgrade)
  then none
  else if ¬ (StateHash.contains w.m_resolverStates resolver.id = true)
      ∨ (StateHash.value w.m_resolverStates resolver.id).state ≠ ResolverState.NeedsUpgrade
  then some w
  else
    installResolver cfg (uninstallResolver cfg (markUpgrading w resolver) resolver) resolver false

/-! ## Download and extraction -/

/-- The method `AtticaManager::resolverDownloadFinished`. -/
def resolverDownloadFinished (w : World) (job : DownloadJob) : World :=
  if job.failed = false then
    { w with trace := w.trace ++ [Effect.getPayload job.url job.resolverId job.createAccount] }
  else w

/-- The directory part of an entry is made before its file is opened:
`parts = name.split( "/" )`, and when there is more than one part,
`resolverDir.mkpath( parts.mid( 0, parts.size() - 1 ).join( "/" ) )`, whose
result is not looked at. -/
def makeEntryDirs (fs : FileSystem) (resolverDir : Path) (name : String) : FileSystem :=
  if (splitPath name).length > 1 then
    (FileSystem.mkpath fs resolverDir ("/".intercalate (splitPath name).dropLast)).2
  else fs

/-- The `do ... while ( zipFile.goToNextFile() )` loop of `extractPayload` over
the entries that remain, in the directory `resolverDir`.  `isOpen` tells whether
`fileInZip` is still open: the loop leaves it open when the output file cannot
be opened, and `QuaZipFile::open` refuses to open an object that is open.
Besides the file system the result lists, entry by entry, the file that was
written (`none` for a skipped entry). -/
def extractEntries (resolverDir : Path) :
    List ZipEntry → Bool → FileSystem → FileSystem × List (Option Path)
  | [], _, fs => (fs, [])
  | e :: rest, isOpen, fs =>
    if isOpen = true ∨ e.readable = false then
      let out := extractEntries resolverDir rest isOpen fs
      (out.1, none :: out.2)
    else
      match FileSystem.openWrite (makeEntryDirs fs resolverDir e.name) resolverDir e.name with
      | none =>
        let out := extractEntries resolverDir rest true (makeEntryDirs fs resolverDir e.name)
        (out.1, none :: out.2)
      | some target =>
        let out := extractEntries resolverDir rest false
          (FileSystem.put (makeEntryDirs fs resolverDir e.name) target (Node.file e.data))
        (out.1, some target :: out.2)

/-- The method `AtticaManager::extractPayload`, on the archive that QuaZip
finds in the temporary file: the new file system, the returned string (empty
on failure) and the per-entry list of written files. -/
def extractPayload (cfg : Config) (fs : FileSystem) (archive : Option (List ZipEntry))
    (resolverId : String) : FileSystem × String × List (Option Path) :=
  match archive with
  | none => (fs, "", [])
  | some [] => (fs, "", [])
  | some (e :: es) =>
    match FileSystem.mkpath fs cfg.appDataDir (resolverDirName resolverId) with
    | (false, fs1) => (fs1, "", [])
    | (true, fs1) =>
      let resolverDir :=
        (FileSystem.cd fs1 cfg.appDataDir (resolverDirName resolverId)).getD cfg.appDataDir
      let out := extractEntries resolverDir (e :: es) false fs1
      (out.1, absolutePath resolverDir, out.2)

/-- The absolute path string of `QDir( s )`: an empty string denotes the
working directory. -/
def qdirAbsolutePath (cfg : Config) (s : String) : String :=
  if s = "" then absolutePath cfg.cwd else s

/-- The method `AtticaManager::payloadFetched`, run on a given reply (so that
`Q_ASSERT( reply )` holds). -/
def payloadFetched (cfg : Config) (w : World) (reply : PayloadReply) : World :=
  if reply.failed = false then
    if reply.tempFileOpens = false then w
    else
      let ex := extractPayload cfg w.fs reply.archive reply.resolverId
      let h0 := StateHash.touch w.m_resolverStates reply.resolverId
      let resolverPath := absoluteFilePath (qdirAbsolutePath cfg ex.2.1)
        (StateHash.value h0 reply.resolverId).scriptPath
      if resolverPath ≠ "" then
        let h1 := StateHash.modify h0 reply.resolverId
          (fun r => { r with scriptPath := resolverPath })
        let acc := cfg.createFromPath resolverPath
        let h2 := StateHash.modify h1 reply.resolverId
          (fun r => { r with state := ResolverState.Installed })
        { w with
          fs := ex.1
          m_resolverStates := h2
          accounts := if reply.createAccount = true then w.accounts ++ [acc] else w.accounts
          trace := w.trace
            ++ (if reply.createAccount = true then
                  [Effect.addAccount acc, Effect.settingsAddAccount acc.accountId]
                else [])
            ++ [Effect.setAtticaResolverStates h2,
              Effect.resolverInstalled reply.resolverId,
              Effect.resolverStateChanged reply.resolverId] }
      else { w with fs := ex.1, m_resolverStates := h0 }
  else w

/-- The state recorded for a package after each step of an upgrade whose link
request succeeds: after the state is marked, after the uninstall, after the
install, after the link request completes, and after the payload arrives.  A
debug abort ends the history. -/
def upgradeHistory (cfg : Config) (w : World) (resolver : Content) (job : DownloadJob)
    (reply : PayloadReply) : List ResolverState :=
  let st := fun (x : World) => (StateHash.value x.m_resolverStates resolver.id).state
  let wa := markUpgrading w resolver
  let wb := uninstallResolver cfg wa resolver
  match installResolver cfg wb resolver false with
  | none => [st wa, st wb]
  | some wc =>
    let wd := resolverDownloadFinished wc job
    [st wa, st wb, st wc, st wd, st (payloadFetched cfg wd reply)]

/-- The directory of a package as `doResolverRemove` and `extractPayload` reach
it: `<appDataDir>/atticaresolvers/<id>`, cleaned. -/
def resolverDir (cfg : Config) (id : String) : Path :=
  resolvePath cfg.appDataDir (resolverDirName id)

/-- The conditions under which the removal step deletes the directory of a
package: the directory exists, the id is not empty, and the absolute path of
the directory contains both `atticaresolvers` and the id. -/
def removable (cfg : Config) (fs : FileSystem) (id : String) : Bool :=
  FileSystem.isDir fs (resolverDir cfg id)
    && decide (id ≠ "")
    && containsStr (absolutePath (resolverDir cfg id)) "atticaresolvers"
    && containsStr (absolutePath (resolverDir cfg id)) id

/-- Whether some registry entry with id `k` passes the upgrade test of
`syncServerData` against the record of `k`. -/
def upgradeFound (cfg : Config) (w : World) (k : String) : Bool :=
  w.m_resolvers.any
    (fun c => decide (c.id = k) && upgradeDue cfg (StateHash.value w.m_resolverStates k) c)

/-- The condition of the spec for the move to NeedsUpgrade: the package is in
the state map and in the registry, its state is Installed or NeedsUpgrade, and
the version of a registry entry is newer than the recorded version under the
version comparison. -/
def NewerInCatalog (cfg : Config) (w : World) (k : String) : Prop :=
  StateHash.contains w.m_resolverStates k = true
    ∧ ((StateHash.value w.m_resolverStates k).state = ResolverState.Installed
      ∨ (StateHash.value w.m_resolverStates k).state = ResolverState.NeedsUpgrade)
    ∧ ∃ c ∈ w.m_resolvers, c.id = k
      ∧ cfg.newerVersion (StateHash.value w.m_resolverStates k).version c.version = true

/-- Whether an effect is the signal `resolversLoaded`. -/
def Effect.isResolversLoaded : Effect → Bool
  | Effect.resolversLoaded _ => true
  | _ => false

/-- The controller after construction and `providerAdded` for the resolver
provider, with the persisted states loaded: no listing has completed yet. -/
def World.started (fs : FileSystem) (accounts : List Account) (persisted : StateHash) : World :=
  providerAdded (World.construct fs accounts) "Tomahawk Resolvers" persisted

/-- Both listing completions, the archive listing handled first. -/
def joinArchiveFirst (cfg : Config) (w : World) (archive binary : List Content) : World :=
  binaryResolversList cfg (resolversList cfg w archive) binary

/-- Both listing completions, the binary listing handled first. -/
def joinBinaryFirst (cfg : Config) (w : World) (archive binary : List Content) : World :=
  resolversList cfg (binaryResolversList cfg w binary) archive

/-! ## Worked inputs

Concrete configurations, packages and worlds on which the theorems below are
instantiated. -/

namespace Example

/-- A stand-in for the version comparison, used in the worked inputs only:
never newer when a side is empty, otherwise newer when the strings differ. -/
def newer (oldVersion newVersion : String) : Bool :=
  decide (oldVersion ≠ "" ∧ newVersion ≠ "" ∧ oldVersion ≠ newVersion)

def cfg : Config :=
  { debug := true
    platform := "osx"
    appDataDir := ["home", "u", "tomahawk"]
    cwd := ["home", "u"]
    newerVersion := newer
    createFromPath := fun p => { accountId := p, atticaId := none }
    loadsAsPixmap := fun _ => true }

/-- A disk holding the data directory and nothing below it. -/
def emptyDisk : FileSystem :=
  [(["home"], Node.dir), (["home", "u"], Node.dir), (["home", "u", "tomahawk"], Node.dir)]

/-- Package `p1` as the catalog lists it, at version 1.1. -/
def p1 : Content :=
  { id := "p1", version := "1.1", rating := 3,
    attributes := [("mainscript", "contents/code/main.js")], icons := [] }

/-- Package `p2`. -/
def p2 : Content :=
  { id := "p2", version := "0.3", rating := 0,
    attributes := [("mainscript", "main.js")], icons := [] }

/-- The controller right after construction on the empty disk. -/
def fresh : World :=
  World.construct emptyDisk []

/-- Package `p1` installed at version 1.0 and marked NeedsUpgrade, with its
directory on disk. -/
def outdated : World :=
  { m_resolvers := [p1]
    m_resolverStates :=
      [("p1", { Resolver.init with
                version := "1.0"
                scriptPath := "/home/u/tomahawk/atticaresolvers/p1/contents/code/main.js"
                state := ResolverState.NeedsUpgrade })]
    m_resolverJobsLoaded := 2
    fs := [(["home", "u", "tomahawk", "atticaresolvers", "p1", "contents", "code", "main.js"],
              Node.file [1]),
           (["home", "u", "tomahawk", "atticaresolvers", "p1", "contents", "code"], Node.dir),
           (["home", "u", "tomahawk", "atticaresolvers", "p1", "contents"], Node.dir),
           (["home", "u", "tomahawk", "atticaresolvers", "p1"], Node.dir),
           (["home", "u", "tomahawk", "atticaresolvers"], Node.dir)] ++ emptyDisk
    accounts := [{ accountId := "acc1", atticaId := some "p1" }]
    trace := [] }

/-- A link request for `p1` that succeeded. -/
def linkOk : DownloadJob :=
  { resolverId := "p1", createAccount := false, failed := false, url := "http://host/p1.zip" }

/-- The archive of `p1` version 1.1. -/
def archive11 : List ZipEntry :=
  [{ name := "contents/code/main.js", data := [2, 3], readable := true }]

/-- A payload download for `p1` that succeeded. -/
def payloadOk : PayloadReply :=
  { resolverId := "p1", createAccount := false, failed := false, tempFileOpens := true,
    archive := some archive11 }

/-- A catalog item whose id is the empty string. -/
def unnamed : Content :=
  { id := "", version := "1.0", rating := 0,
    attributes := [("mainscript", "main.js")], icons := [] }

/-- The item with the empty id recorded as Installed; its directory
`<appDataDir>/atticaresolvers/` exists and holds its script. -/
def unnamedInstalled : World :=
  { m_resolvers := [unnamed]
    m_resolverStates :=
      [("", { Resolver.init with
              version := "1.0"
              scriptPath := "/home/u/tomahawk/atticaresolvers/main.js"
              state := ResolverState.Installed })]
    m_resolverJobsLoaded := 2
    fs := [(["home", "u", "tomahawk", "atticaresolvers", "main.js"], Node.file [7]),
           (["home", "u", "tomahawk", "atticaresolvers"], Node.dir)] ++ emptyDisk
    accounts := []
    trace := [] }

/-- Package `p1` installed at version 1.0 with its directory on disk, the
catalog listing version 1.1; `p2` is listed but was never installed. -/
def installed10 : World :=
  { outdated with
    m_resolvers := [p1, p2]
    m_resolverStates :=
      [("p1", { Resolver.init with
                version := "1.0"
                scriptPath := "/home/u/tomahawk/atticaresolvers/p1/contents/code/main.js"
                state := ResolverState.Installed }),
       ("p2", Resolver.init)] }

/-- A binary package for OS X. -/
def spotifyOsx : Content :=
  { id := "spotify-osx", version := "0.9", rating := 5,
    attributes := [("typeid", "osx")], icons := [] }

/-- A binary package for Windows. -/
def spotifyWin : Content :=
  { id := "spotify-win", version := "0.9", rating := 5,
    attributes := [("typeid", "win")], icons := [] }

/-- A link request for `p2` that failed. -/
def linkFailed : DownloadJob :=
  { resolverId := "p2", createAccount := true, failed := true, url := "" }

/-- The world after `installResolver` was called for `p2` on the fresh
controller: `p2` is Installing with script path `main.js`. -/
def installingP2 : World :=
  (installResolver cfg fresh p2 true).getD fresh

/-- A payload for `p2` that downloads and unpacks, but whose archive does not
hold the script `main.js`. -/
def payloadNoScript : PayloadReply :=
  { resolverId := "p2", createAccount := true, failed := false, tempFileOpens := true,
    archive := some [{ name := "readme.txt", data := [9], readable := true }] }

/-- An archive with a nested icon and a top-level script. -/
def archiveAssets : List ZipEntry :=
  [{ name := "assets/icon.png", data := [137, 80, 78, 71], readable := true },
   { name := "main.js", data := [47, 47], readable := true }]

/-- A payload for `p2` whose bytes are not a zip archive. -/
def payloadBroken : PayloadReply :=
  { resolverId := "p2", createAccount := false, failed := false, tempFileOpens := true,
    archive := none }

/-- Persisted states in which the binary package `spotify-osx` is Installed at
version 0.8 and was rated 4 by the user. -/
def spotifyRated : StateHash :=
  [("spotify-osx", { Resolver.init with
                     version := "0.8"
                     userRating := 4
                     state := ResolverState.Installed
                     binary := true })]

/-- The controller started on the empty disk with `spotifyRated` persisted. -/
def startedRated : World :=
  World.started emptyDisk [] spotifyRated

/-- A disk on which package `p2` is installed, with its script `main.js`. -/
def diskWithP2 : FileSystem :=
  [(["home", "u", "tomahawk", "atticaresolvers", "p2", "main.js"], Node.file [5]),
   (["home", "u", "tomahawk", "atticaresolvers", "p2"], Node.dir),
   (["home", "u", "tomahawk", "atticaresolvers"], Node.dir)] ++ emptyDisk

/-- An archive for `p1` whose entry names leave the package directory: through
`..` into the directory of `p2`, through `..` into a new sibling directory, and
by an absolute name. -/
def archiveEscaping : List ZipEntry :=
  [{ name := "main.js", data := [1], readable := true },
   { name := "../p2/main.js", data := [6, 6, 6], readable := true },
   { name := "../p3/lib/x.js", data := [7], readable := true },
   { name := "/home/u/evil.sh", data := [8], readable := true }]

end Example

/-! ## Lemmas on the state hash -/

theorem StateHash.value_insert (h : StateHash) (id k : String) (r : Resolver) :
    StateHash.value (StateHash.insert h id r) k
      = if k = id then r else StateHash.value h k := by
  induction h with
  | nil =>
    by_cases hk : k = id
    · simp [StateHash.insert, StateHash.value, hk]
    · have hk' : ¬ id = k := fun e => hk e.symm
      simp [StateHash.insert, StateHash.value, hk, hk']
  | cons e rest ih =>
    obtain ⟨k0, r0⟩ := e
    by_cases h0 : k0 = id
    · by_cases hk : k = id
      · simp [StateHash.insert, StateHash.value, h0, hk]
      · have hk' : ¬ id = k := fun e => hk e.symm
        simp [StateHash.insert, StateHash.value, h0, hk, hk']
    · by_cases hk : k0 = k
      · have : ¬ k = id := fun e => h0 (hk.trans e)
        simp [StateHash.insert, StateHash.value, h0, hk, this]
      · simp [StateHash.insert, StateHash.value, h0, hk, ih]

theorem StateHash.contains_insert (h : StateHash) (id k : String) (r : Resolver) :
    StateHash.contains (StateHash.insert h id r) k
      = (decide (k = id) || StateHash.contains h k) := by
  induction h with
  | nil =>
    by_cases hk : k = id
    · simp [StateHash.insert, StateHash.contains, hk]
    · have hk' : ¬ id = k := fun e => hk e.symm
      simp [StateHash.insert, StateHash.contains, hk, hk']
  | cons e rest ih =>
    obtain ⟨k0, r0⟩ := e
    by_cases h0 : k0 = id
    · by_cases hk : k = id
      · simp [StateHash.insert, StateHash.contains, h0, hk]
      · have hk' : ¬ id = k := fun e => hk e.symm
        simp [StateHash.insert, StateHash.contains, h0, hk, hk']
    · by_cases hk : k0 = k
      · subst hk
        simp [StateHash.insert, StateHash.contains, h0]
      · simp [StateHash.insert, StateHash.contains, h0, hk, ih]

theorem StateHash.value_of_not_contains (h : StateHash) (k : String)
    (hk : StateHash.contains h k = false) : StateHash.value h k = Resolver.init := by
  induction h with
  | nil => rfl
  | cons e rest ih =>
    obtain ⟨k0, r0⟩ := e
    by_cases h0 : k0 = k
    · simp [StateHash.contains, h0] at hk
    · simp [StateHash.contains, h0] at hk
      simp [StateHash.value, h0, ih hk]

theorem StateHash.value_touch (h : StateHash) (id k : String) :
    StateHash.value (StateHash.touch h id) k = StateHash.value h k := by
  unfold StateHash.touch
  by_cases hc : StateHash.contains h id = true
  · simp [hc]
  · have hc' : StateHash.contains h id = false := by simpa using hc
    simp only [hc', Bool.false_eq_true, if_false, StateHash.value_insert]
    by_cases hk : k = id
    · subst hk
      simp [StateHash.value_of_not_contains h k hc']
    · simp [hk]

theorem StateHash.contains_touch (h : StateHash) (id k : String) :
    StateHash.contains (StateHash.touch h id) k
      = (decide (k = id) || StateHash.contains h k) := by
  unfold StateHash.touch
  by_cases hc : StateHash.contains h id = true
  · by_cases hk : k = id
    · subst hk; simp [hc]
    · simp [hc, hk]
  · simp [hc, StateHash.contains_insert]

theorem StateHash.value_modify (h : StateHash) (id k : String) (f : Resolver → Resolver) :
    StateHash.value (StateHash.modify h id f) k
      = if k = id then f (StateHash.value h id) else StateHash.value h k := by
  simp [StateHash.modify, StateHash.value_insert]

theorem StateHash.contains_modify (h : StateHash) (id k : String) (f : Resolver → Resolver) :
    StateHash.contains (StateHash.modify h id f) k
      = (decide (k = id) || StateHash.contains h k) := by
  simp [StateHash.modify, StateHash.contains_insert]

/-! ## Lemmas on path strings -/

theorem slash_length : "/".length = 1 := by decide

theorem absolutePath_ne_empty (p : Path) : absolutePath p ≠ "" := by
  intro h
  have := congrArg String.length h
  simp [absolutePath, slash_length] at this

theorem isAbsolutePath_ne_empty (s : String) (h : isAbsolutePath s = true) : s ≠ "" := by
  intro e
  subst e
  simp [isAbsolutePath] at h

theorem qdirAbsolutePath_ne_empty (cfg : Config) (s : String) : qdirAbsolutePath cfg s ≠ "" := by
  unfold qdirAbsolutePath
  by_cases hs : s = ""
  · simp [hs, absolutePath_ne_empty]
  · simp [hs]

theorem absoluteFilePath_ne_empty (dirAbs fn : String) (hd : dirAbs ≠ "") :
    absoluteFilePath dirAbs fn ≠ "" := by
  unfold absoluteFilePath
  by_cases ha : isAbsolutePath fn = true
  · simp [ha, isAbsolutePath_ne_empty fn ha]
  · by_cases hf : fn = ""
    · subst hf
      simp [ha, hd]
    · by_cases hr : dirAbs = "/"
      · simp only [ha, hf, hr, if_true, if_false]
        intro h
        have := congrArg String.length h
        simp [slash_length] at this
      · simp only [ha, hf, hr, if_false]
        intro h
        have := congrArg String.length h
        simp [slash_length] at this

/-! ## C1: install -/

/-- The result of `installResolver` on a package with a non-empty id. -/
theorem installResolver_spec (cfg : Config) (w : World) (resolver : Content)
    (autoCreateAccount : Bool) (hid : resolver.id ≠ "") :
    ∃ w', installResolver cfg w resolver autoCreateAccount = some w'
      ∧ (StateHash.value w'.m_resolverStates resolver.id).state
          = (if (StateHash.value w.m_resolverStates resolver.id).state = ResolverState.Upgrading
             then ResolverState.Upgrading else ResolverState.Installing)
      ∧ (StateHash.value w'.m_resolverStates resolver.id).scriptPath
          = resolver.attribute "mainscript"
      ∧ (StateHash.value w'.m_resolverStates resolver.id).version = resolver.version
      ∧ w'.trace = w.trace ++ [Effect.resolverStateChanged resolver.id,
          Effect.downloadLink resolver.id autoCreateAccount]
      ∧ (∀ k, k ≠ resolver.id →
          StateHash.value w'.m_resolverStates k = StateHash.value w.m_resolverStates k
          ∧ StateHash.contains w'.m_resolverStates k = StateHash.contains w.m_resolverStates k)
      ∧ w'.m_resolvers = w.m_resolvers ∧ w'.fs = w.fs ∧ w'.accounts = w.accounts
      ∧ w'.m_resolverJobsLoaded = w.m_resolverJobsLoaded := by
  unfold installResolver
  rw [if_neg (fun h => hid h.2)]
  refine ⟨_, rfl, ?_, ?_, ?_, rfl, ?_, rfl, rfl, rfl, rfl⟩
  · by_cases hu : (StateHash.value w.m_resolverStates resolver.id).state = ResolverState.Upgrading
    · simp [StateHash.value_modify, StateHash.value_touch, hu]
    · simp [StateHash.value_modify, StateHash.value_touch, hu]
  · simp [StateHash.value_modify]
  · simp [StateHash.value_modify]
  · intro k hk
    by_cases hu : (StateHash.value w.m_resolverStates resolver.id).state = ResolverState.Upgrading
    · simp [StateHash.value_modify, StateHash.value_touch, StateHash.contains_modify,
        StateHash.contains_touch, hu, hk]
    · simp [StateHash.value_modify, StateHash.value_touch, StateHash.contains_modify,
        StateHash.contains_touch, hu, hk]

/-- C1. For a package with a non-empty id and any prior world, `installResolver`
returns a world in which the package's state is Upgrading if it was Upgrading
and Installing otherwise, its recorded script path is the package's `mainscript`
attribute and its recorded version is the package's version; the trace grows by
exactly one state-changed signal for the id followed by the download-link
request; the record of every other id, the registry, the disk and the accounts
are unchanged. -/
theorem installResolver_records (cfg : Config) (w : World) (resolver : Content)
    (autoCreateAccount : Bool) (hid : resolver.id ≠ "") :
    ∃ w', installResolver cfg w resolver autoCreateAccount = some w'
      ∧ (StateHash.value w'.m_resolverStates resolver.id).state
          = (if (StateHash.value w.m_resolverStates resolver.id).state = ResolverState.Upgrading
             then ResolverState.Upgrading else ResolverState.Installing)
      ∧ (StateHash.value w'.m_resolverStates resolver.id).scriptPath
          = resolver.attribute "mainscript"
      ∧ (StateHash.value w'.m_resolverStates resolver.id).version = resolver.version
      ∧ w'.trace = w.trace ++ [Effect.resolverStateChanged resolver.id,
          Effect.downloadLink resolver.id autoCreateAccount]
      ∧ (∀ k, k ≠ resolver.id →
          StateHash.value w'.m_resolverStates k = StateHash.value w.m_resolverStates k
          ∧ StateHash.contains w'.m_resolverStates k = StateHash.contains w.m_resolverStates k)
      ∧ w'.m_resolvers = w.m_resolvers ∧ w'.fs = w.fs ∧ w'.accounts = w.accounts
      ∧ w'.m_resolverJobsLoaded = w.m_resolverJobsLoaded := by
  unfold installResolver
  rw [if_neg (fun h => hid h.2)]
  refine ⟨_, rfl, ?_, ?_, ?_, rfl, ?_, rfl, rfl, rfl, rfl⟩
  · by_cases hu : (StateHash.value w.m_resolverStates resolver.id).state = ResolverState.Upgrading
    · simp [StateHash.value_modify, StateHash.value_touch, hu]
    · simp [StateHash.value_modify, StateHash.value_touch, hu]
  · simp [StateHash.value_modify]
  · simp [StateHash.value_modify]
  · intro k hk
    by_cases hu : (StateHash.value w.m_resolverStates resolver.id).state = ResolverState.Upgrading
    · simp [StateHash.value_modify, StateHash.value_touch, StateHash.contains_modify,
        StateHash.contains_touch, hu, hk]
    · simp [StateHash.value_modify, StateHash.value_touch, StateHash.contains_modify,
        StateHash.contains_touch, hu, hk]

theorem installResolver_records_witness :
    Example.p1.id ≠ ""
      ∧ ∃ w', installResolver Example.cfg Example.fresh Example.p1 true = some w'
        ∧ (StateHash.value w'.m_resolverStates Example.p1.id).state
            = (if (StateHash.value Example.fresh.m_resolverStates Example.p1.id).state
                  = ResolverState.Upgrading
               then ResolverState.Upgrading else ResolverState.Installing)
        ∧ (StateHash.value w'.m_resolverStates Example.p1.id).scriptPath
            = Example.p1.attribute "mainscript"
        ∧ (StateHash.value w'.m_resolverStates Example.p1.id).version = Example.p1.version
        ∧ w'.trace = Example.fresh.trace ++ [Effect.resolverStateChanged Example.p1.id,
            Effect.downloadLink Example.p1.id true]
        ∧ (∀ k, k ≠ Example.p1.id →
            StateHash.value w'.m_resolverStates k
              = StateHash.value Example.fresh.m_resolverStates k
            ∧ StateHash.contains w'.m_resolverStates k
              = StateHash.contains Example.fresh.m_resolverStates k)
        ∧ w'.m_resolvers = Example.fresh.m_resolvers ∧ w'.fs = Example.fresh.fs
        ∧ w'.accounts = Example.fresh.accounts
        ∧ w'.m_resolverJobsLoaded = Example.fresh.m_resolverJobsLoaded :=
  ⟨by decide, installResolver_records Example.cfg Example.fresh Example.p1 true (by decide)⟩

theorem StateHash.contains_of_state_ne (h : StateHash) (k : String)
    (hs : (StateHash.value h k).state ≠ ResolverState.Uninstalled) :
    StateHash.contains h k = true := by
  by_contra hc
  have hc' : StateHash.contains h k = false := by simpa using hc
  rw [StateHash.value_of_not_contains h k hc'] at hs
  exact hs rfl

theorem StateHash.touch_of_contains (h : StateHash) (k : String)
    (hc : StateHash.contains h k = true) : StateHash.touch h k = h := by
  simp [StateHash.touch, hc]

theorem doResolverRemove_frame (cfg : Config) (w : World) (id : String) :
    (doResolverRemove cfg w id).m_resolverStates = w.m_resolverStates
      ∧ (doResolverRemove cfg w id).m_resolvers = w.m_resolvers
      ∧ (doResolverRemove cfg w id).accounts = w.accounts
      ∧ (doResolverRemove cfg w id).m_resolverJobsLoaded = w.m_resolverJobsLoaded := by
  unfold doResolverRemove
  split
  · exact ⟨rfl, rfl, rfl, rfl⟩
  · split
    · exact ⟨rfl, rfl, rfl, rfl⟩
    · split
      · exact ⟨rfl, rfl, rfl, rfl⟩
      · exact ⟨rfl, rfl, rfl, rfl⟩

theorem uninstallResolver_states_upgrading (cfg : Config) (w : World) (resolver : Content)
    (hs : (StateHash.value w.m_resolverStates resolver.id).state = ResolverState.Upgrading) :
    (uninstallResolver cfg w resolver).m_resolverStates = w.m_resolverStates := by
  have hc : StateHash.contains w.m_resolverStates resolver.id = true :=
    StateHash.contains_of_state_ne _ _ (by rw [hs]; decide)
  unfold uninstallResolver
  simp only [StateHash.value_touch, hs, ne_eq, not_true_eq_false, if_false]
  rw [(doResolverRemove_frame cfg _ resolver.id).1, StateHash.touch_of_contains _ _ hc]

theorem payloadFetched_states (cfg : Config) (w : World) (reply : PayloadReply)
    (hf : reply.failed = false) (ht : reply.tempFileOpens = true) :
    (payloadFetched cfg w reply).m_resolverStates
      = StateHash.modify
          (StateHash.modify (StateHash.touch w.m_resolverStates reply.resolverId)
            reply.resolverId
            (fun r => Resolver.mk r.version
              (absoluteFilePath
                (qdirAbsolutePath cfg (extractPayload cfg w.fs reply.archive reply.resolverId).2.1)
                (StateHash.value w.m_resolverStates reply.resolverId).scriptPath)
              r.userRating r.state r.pixmap r.binary r.pixmapDirty))
          reply.resolverId (fun r => { r with state := ResolverState.Installed }) := by
  unfold payloadFetched
  have hne := absoluteFilePath_ne_empty
    (qdirAbsolutePath cfg (extractPayload cfg w.fs reply.archive reply.resolverId).2.1)
    (StateHash.value w.m_resolverStates reply.resolverId).scriptPath
    (qdirAbsolutePath_ne_empty cfg _)
  simp only [hf, ht, if_true, StateHash.value_touch]
  simp [hne]

theorem resolverDownloadFinished_states (w : World) (job : DownloadJob) :
    (resolverDownloadFinished w job).m_resolverStates = w.m_resolverStates := by
  unfold resolverDownloadFinished
  split <;> rfl

theorem resolverDownloadFinished_fs (w : World) (job : DownloadJob) :
    (resolverDownloadFinished w job).fs = w.fs := by
  unfold resolverDownloadFinished
  split <;> rfl

/-! ## C2: upgrade -/

/-- C2 (amended). For a package with a non-empty id whose state is NeedsUpgrade,
`upgradeResolver` marks the state Upgrading and then runs `uninstallResolver`
followed by `installResolver` without account creation.  The recorded state is
Upgrading after each of these steps and after the successful link request (it
is never Installing).  When the download then succeeds, the temporary file can
be opened and the extraction succeeds (`extractPayload` returns the destination
directory), the state becomes Installed, the recorded script path is the
`mainscript` attribute below that directory, and the recorded version is the
version of the package passed to the upgrade. -/
theorem upgradeResolver_history (cfg : Config) (w : World) (resolver : Content)
    (job : DownloadJob) (reply : PayloadReply)
    (hid : resolver.id ≠ "")
    (hst : (StateHash.value w.m_resolverStates resolver.id).state = ResolverState.NeedsUpgrade)
    (hjob : job.failed = false)
    (hf : reply.failed = false) (ht : reply.tempFileOpens = true)
    (hr : reply.resolverId = resolver.id)
    (hex : (extractPayload cfg
        (uninstallResolver cfg (markUpgrading w resolver) resolver).fs
        reply.archive resolver.id).2.1 ≠ "") :
    upgradeResolver cfg w resolver
        = installResolver cfg (uninstallResolver cfg (markUpgrading w resolver) resolver)
            resolver false
      ∧ upgradeHistory cfg w resolver job reply
          = [ResolverState.Upgrading, ResolverState.Upgrading, ResolverState.Upgrading,
             ResolverState.Upgrading, ResolverState.Installed]
      ∧ ∃ w1, upgradeResolver cfg w resolver = some w1
        ∧ (resolverDownloadFinished w1 job).trace
            = w1.trace ++ [Effect.getPayload job.url job.resolverId job.createAccount]
        ∧ (StateHash.value
            (payloadFetched cfg (resolverDownloadFinished w1 job) reply).m_resolverStates
            resolver.id).state = ResolverState.Installed
        ∧ (StateHash.value
            (payloadFetched cfg (resolverDownloadFinished w1 job) reply).m_resolverStates
            resolver.id).version = resolver.version
        ∧ (StateHash.value
            (payloadFetched cfg (resolverDownloadFinished w1 job) reply).m_resolverStates
            resolver.id).scriptPath
          = absoluteFilePath
              (extractPayload cfg
                (uninstallResolver cfg (markUpgrading w resolver) resolver).fs
                reply.archive resolver.id).2.1
              (resolver.attribute "mainscript") := by
  have hc : StateHash.contains w.m_resolverStates resolver.id = true :=
    StateHash.contains_of_state_ne _ _ (by rw [hst]; decide)
  have hup : upgradeResolver cfg w resolver
      = installResolver cfg (uninstallResolver cfg (markUpgrading w resolver) resolver)
          resolver false := by
    unfold upgradeResolver
    simp [hc, hst]
  have ha : (StateHash.value (markUpgrading w resolver).m_resolverStates resolver.id).state
      = ResolverState.Upgrading := by
    simp [markUpgrading, StateHash.value_modify]
  have hb : (uninstallResolver cfg (markUpgrading w resolver) resolver).m_resolverStates
      = (markUpgrading w resolver).m_resolverStates :=
    uninstallResolver_states_upgrading cfg _ resolver ha
  obtain ⟨w1, hw1, hs1, hp1, hv1, _, _, _, hfs1, _⟩ :=
    installResolver_spec cfg (uninstallResolver cfg (markUpgrading w resolver) resolver)
      resolver false hid
  rw [hb, ha] at hs1
  simp only [if_true] at hs1
  have hq : qdirAbsolutePath cfg (extractPayload cfg
      (uninstallResolver cfg (markUpgrading w resolver) resolver).fs
      reply.archive resolver.id).2.1
      = (extractPayload cfg
          (uninstallResolver cfg (markUpgrading w resolver) resolver).fs
          reply.archive resolver.id).2.1 := by
    simp [qdirAbsolutePath, hex]
  have hfin := payloadFetched_states cfg (resolverDownloadFinished w1 job) reply hf ht
  rw [resolverDownloadFinished_states, resolverDownloadFinished_fs, hr, hfs1, hq, hp1] at hfin
  have hsf : (StateHash.value
      (payloadFetched cfg (resolverDownloadFinished w1 job) reply).m_resolverStates
      resolver.id).state = ResolverState.Installed := by
    rw [hfin]; simp [StateHash.value_modify]
  have hvf : (StateHash.value
      (payloadFetched cfg (resolverDownloadFinished w1 job) reply).m_resolverStates
      resolver.id).version = resolver.version := by
    rw [hfin]; simp [StateHash.value_modify, StateHash.value_touch, hv1]
  have hpf : (StateHash.value
      (payloadFetched cfg (resolverDownloadFinished w1 job) reply).m_resolverStates
      resolver.id).scriptPath
      = absoluteFilePath
          (extractPayload cfg
            (uninstallResolver cfg (markUpgrading w resolver) resolver).fs
            reply.archive resolver.id).2.1
          (resolver.attribute "mainscript") := by
    rw [hfin]; simp [StateHash.value_modify]
  refine ⟨hup, ?_, w1, hup.trans hw1, ?_, hsf, hvf, hpf⟩
  · unfold upgradeHistory
    simp only [hw1, hb, ha, hs1, resolverDownloadFinished_states, hsf]
  · simp [resolverDownloadFinished, hjob]

theorem upgradeResolver_history_witness :
    (Example.p1.id ≠ ""
      ∧ (StateHash.value Example.outdated.m_resolverStates Example.p1.id).state
          = ResolverState.NeedsUpgrade
      ∧ Example.linkOk.failed = false ∧ Example.payloadOk.failed = false
      ∧ Example.payloadOk.tempFileOpens = true ∧ Example.payloadOk.resolverId = Example.p1.id
      ∧ (extractPayload Example.cfg
          (uninstallResolver Example.cfg (markUpgrading Example.outdated Example.p1)
            Example.p1).fs
          Example.payloadOk.archive Example.p1.id).2.1 ≠ "")
    ∧ upgradeResolver Example.cfg Example.outdated Example.p1
        = installResolver Example.cfg
            (uninstallResolver Example.cfg (markUpgrading Example.outdated Example.p1) Example.p1)
            Example.p1 false
    ∧ upgradeHistory Example.cfg Example.outdated Example.p1 Example.linkOk Example.payloadOk
        = [ResolverState.Upgrading, ResolverState.Upgrading, ResolverState.Upgrading,
           ResolverState.Upgrading, ResolverState.Installed]
    ∧ ∃ w1, upgradeResolver Example.cfg Example.outdated Example.p1 = some w1
      ∧ (resolverDownloadFinished w1 Example.linkOk).trace
          = w1.trace ++ [Effect.getPayload Example.linkOk.url Example.linkOk.resolverId
              Example.linkOk.createAccount]
      ∧ (StateHash.value
          (payloadFetched Example.cfg (resolverDownloadFinished w1 Example.linkOk)
            Example.payloadOk).m_resolverStates
          Example.p1.id).state = ResolverState.Installed
      ∧ (StateHash.value
          (payloadFetched Example.cfg (resolverDownloadFinished w1 Example.linkOk)
            Example.payloadOk).m_resolverStates
          Example.p1.id).version = Example.p1.version
      ∧ (StateHash.value
          (payloadFetched Example.cfg (resolverDownloadFinished w1 Example.linkOk)
            Example.payloadOk).m_resolverStates
          Example.p1.id).scriptPath
        = absoluteFilePath
            (extractPayload Example.cfg
              (uninstallResolver Example.cfg (markUpgrading Example.outdated Example.p1)
                Example.p1).fs
              Example.payloadOk.archive Example.p1.id).2.1
            (Example.p1.attribute "mainscript") :=
  ⟨by decide,
   upgradeResolver_history Example.cfg Example.outdated Example.p1 Example.linkOk
     Example.payloadOk (by decide) (by decide) (by decide) (by decide) (by decide) (by decide)
     (by decide)⟩

/-- C2 as stated fails: in the upgrade of `p1` from 1.0 to 1.1, with link
request, download and extraction all succeeding, the recorded state is never
Installing, so it does not pass through Upgrading, Installing, Installed. -/
theorem upgrade_never_installing :
    (StateHash.value Example.outdated.m_resolverStates Example.p1.id).state
        = ResolverState.NeedsUpgrade
      ∧ ResolverState.Installing
          ∉ upgradeHistory Example.cfg Example.outdated Example.p1 Example.linkOk
              Example.payloadOk
      ∧ ¬ List.Sublist
          [ResolverState.Upgrading, ResolverState.Installing, ResolverState.Installed]
          (upgradeHistory Example.cfg Example.outdated Example.p1 Example.linkOk
            Example.payloadOk) := by
  decide

theorem doResolverRemove_effects (cfg : Config) (w : World) (id : String) :
    (doResolverRemove cfg w id).trace
        = w.trace ++ (if removable cfg w.fs id = true
            then [Effect.removeDirectory (absolutePath (resolverDir cfg id))] else [])
      ∧ (doResolverRemove cfg w id).fs
        = (if removable cfg w.fs id = true
            then FileSystem.removeDirectory w.fs (resolverDir cfg id) else w.fs) := by
  unfold doResolverRemove removable FileSystem.cd resolverDir
  by_cases hd : FileSystem.isDir w.fs (resolvePath cfg.appDataDir (resolverDirName id)) = true
  · by_cases hi : id = ""
    · subst hi
      simp [hd]
    · by_cases h1 : containsStr (absolutePath (resolvePath cfg.appDataDir (resolverDirName id)))
          "atticaresolvers" = true
      · by_cases h2 : containsStr (absolutePath (resolvePath cfg.appDataDir (resolverDirName id)))
            id = true
        · simp [hd, hi, h1, h2]
        · simp [hd, hi, h1, h2]
      · simp [hd, hi, h1]
  · simp [hd]

/-! ## C3: uninstall -/

/-- C3 (amended). For every package and prior world, `uninstallResolver` does
the following.  If the recorded state is not Upgrading it emits `uninstalled`
and `state changed` for the id, once each, sets the state to Uninstalled,
persists that state and removes every account registered for the id; if the
state is Upgrading it emits nothing, leaves the state Upgrading and removes no
account.  In both cases it then runs the removal step, which requests deletion
of the package directory exactly when that directory exists, the id is not
empty and the absolute path of the directory contains `atticaresolvers` and the
id; otherwise nothing is deleted.  No other record changes. -/
theorem uninstallResolver_effects (cfg : Config) (w : World) (resolver : Content) :
    (StateHash.value (uninstallResolver cfg w resolver).m_resolverStates resolver.id).state
        = (if (StateHash.value w.m_resolverStates resolver.id).state = ResolverState.Upgrading
           then ResolverState.Upgrading else ResolverState.Uninstalled)
      ∧ (∀ k, k ≠ resolver.id →
          StateHash.value (uninstallResolver cfg w resolver).m_resolverStates k
            = StateHash.value w.m_resolverStates k)
      ∧ (uninstallResolver cfg w resolver).accounts
        = (if (StateHash.value w.m_resolverStates resolver.id).state = ResolverState.Upgrading
           then w.accounts
           else w.accounts.filter (fun a => !isAccountOf resolver.id a))
      ∧ (uninstallResolver cfg w resolver).trace
        = w.trace
          ++ (if (StateHash.value w.m_resolverStates resolver.id).state = ResolverState.Upgrading
              then []
              else [Effect.resolverUninstalled resolver.id,
                    Effect.resolverStateChanged resolver.id,
                    Effect.setAtticaResolverState resolver.id ResolverState.Uninstalled]
                ++ (w.accounts.filter (isAccountOf resolver.id)).map Effect.removeAccount)
          ++ (if removable cfg w.fs resolver.id = true
              then [Effect.removeDirectory (absolutePath (resolverDir cfg resolver.id))]
              else [])
      ∧ (uninstallResolver cfg w resolver).fs
        = (if removable cfg w.fs resolver.id = true
           then FileSystem.removeDirectory w.fs (resolverDir cfg resolver.id) else w.fs) := by
  unfold uninstallResolver
  by_cases hu : (StateHash.value w.m_resolverStates resolver.id).state = ResolverState.Upgrading
  · simp only [StateHash.value_touch, hu, ne_eq, not_true_eq_false, if_false, if_true]
    refine ⟨?_, ?_, ?_, ?_, ?_⟩
    · rw [(doResolverRemove_frame cfg _ resolver.id).1]
      simp [StateHash.value_touch, hu]
    · intro k _
      rw [(doResolverRemove_frame cfg _ resolver.id).1]
      simp [StateHash.value_touch]
    · rw [(doResolverRemove_frame cfg _ resolver.id).2.2.1]
    · rw [(doResolverRemove_effects cfg _ resolver.id).1]
      simp
    · rw [(doResolverRemove_effects cfg _ resolver.id).2]
  · simp only [StateHash.value_touch, hu, ne_eq, not_false_eq_true, if_true, if_false]
    refine ⟨?_, ?_, ?_, ?_, ?_⟩
    · rw [(doResolverRemove_frame cfg _ resolver.id).1]
      simp [StateHash.value_modify]
    · intro k hk
      rw [(doResolverRemove_frame cfg _ resolver.id).1]
      simp [StateHash.value_modify, StateHash.value_touch, hk]
    · rw [(doResolverRemove_frame cfg _ resolver.id).2.2.1]
    · rw [(doResolverRemove_effects cfg _ resolver.id).1]
      simp
    · rw [(doResolverRemove_effects cfg _ resolver.id).2]

/-- C3 as stated fails: the item with the empty id is recorded as Installed and
its directory exists on disk, yet uninstalling it requests no deletion and
leaves the disk as it was. -/
theorem uninstall_empty_id_keeps_directory :
    FileSystem.isDir Example.unnamedInstalled.fs (resolverDir Example.cfg Example.unnamed.id)
        = true
      ∧ (∀ path, Effect.removeDirectory path
          ∉ (uninstallResolver Example.cfg Example.unnamedInstalled Example.unnamed).trace)
      ∧ (uninstallResolver Example.cfg Example.unnamedInstalled Example.unnamed).fs
        = Example.unnamedInstalled.fs := by
  have ht : (uninstallResolver Example.cfg Example.unnamedInstalled Example.unnamed).trace
      = [Effect.resolverUninstalled "", Effect.resolverStateChanged "",
         Effect.setAtticaResolverState "" ResolverState.Uninstalled] := by decide
  refine ⟨by decide, ?_, by decide⟩
  intro path
  rw [ht]
  simp

theorem StateHash.mem_keys_iff (h : StateHash) (k : String) :
    k ∈ StateHash.keys h ↔ StateHash.contains h k = true := by
  induction h with
  | nil => simp [StateHash.keys, StateHash.contains]
  | cons e rest ih =>
    obtain ⟨k0, r0⟩ := e
    by_cases h0 : k0 = k
    · simp [StateHash.keys, StateHash.contains, h0]
    · have h0' : ¬ k = k0 := fun e => h0 e.symm
      simp only [StateHash.keys] at ih
      simp [StateHash.keys, StateHash.contains, h0, h0', ih]

theorem isStale_iff (cfg : Config) (fs : FileSystem) (k : String) (r : Resolver) :
    isStale cfg fs k r = true
      ↔ (r.state = ResolverState.Installed ∨ r.state = ResolverState.NeedsUpgrade)
        ∧ r.binary = false ∧ resolverDirExists cfg fs k = false := by
  simp [isStale, and_assoc]

theorem isStale_uninstalled (cfg : Config) (fs : FileSystem) (k : String) (r : Resolver) :
    isStale cfg fs k { r with state := ResolverState.Uninstalled } = false := by
  simp [isStale]

theorem isStale_contains (cfg : Config) (fs : FileSystem) (h : StateHash) (k : String)
    (hs : isStale cfg fs k (StateHash.value h k) = true) : StateHash.contains h k = true := by
  apply StateHash.contains_of_state_ne
  rw [isStale_iff] at hs
  rcases hs.1 with h1 | h1 <;> rw [h1] <;> decide

/-- The effect of one iteration of the sanity check. -/
theorem sanityCheckAt_spec (cfg : Config) (w : World) (rId : String) :
    (sanityCheckAt cfg w rId).fs = w.fs
      ∧ (sanityCheckAt cfg w rId).m_resolvers = w.m_resolvers
      ∧ (sanityCheckAt cfg w rId).accounts = w.accounts
      ∧ (sanityCheckAt cfg w rId).m_resolverJobsLoaded = w.m_resolverJobsLoaded
      ∧ (sanityCheckAt cfg w rId).trace
        = w.trace ++ (if isStale cfg w.fs rId (StateHash.value w.m_resolverStates rId) = true
            then [Effect.setAtticaResolverState rId ResolverState.Uninstalled] else [])
      ∧ (∀ k, StateHash.value (sanityCheckAt cfg w rId).m_resolverStates k
          = if k = rId ∧ isStale cfg w.fs rId (StateHash.value w.m_resolverStates rId) = true
            then { StateHash.value w.m_resolverStates k with state := ResolverState.Uninstalled }
            else StateHash.value w.m_resolverStates k)
      ∧ (∀ k, StateHash.contains (sanityCheckAt cfg w rId).m_resolverStates k
          = StateHash.contains w.m_resolverStates k) := by
  unfold sanityCheckAt
  by_cases hs : isStale cfg w.fs rId (StateHash.value w.m_resolverStates rId) = true
  · rw [if_pos hs, if_pos hs]
    refine ⟨rfl, rfl, rfl, rfl, rfl, ?_, ?_⟩
    · intro k
      by_cases hk : k = rId
      · subst hk; simp [StateHash.value_modify, hs]
      · simp [StateHash.value_modify, hk]
    · intro k
      by_cases hk : k = rId
      · subst hk
        simp [StateHash.contains_modify, isStale_contains cfg w.fs _ k hs]
      · simp [StateHash.contains_modify, hk]
  · simp [hs]

/-- The sanity-check loop over any list of keys. -/
theorem sanityCheck_fold (cfg : Config) (ks : List String) : ∀ w : World,
    ∃ reported : List String,
      (ks.foldl (sanityCheckAt cfg) w).trace
          = w.trace ++ reported.map
              (fun k => Effect.setAtticaResolverState k ResolverState.Uninstalled)
        ∧ reported.Nodup
        ∧ (∀ k, k ∈ reported
            ↔ k ∈ ks ∧ isStale cfg w.fs k (StateHash.value w.m_resolverStates k) = true)
        ∧ (∀ k, StateHash.value (ks.foldl (sanityCheckAt cfg) w).m_resolverStates k
            = if k ∈ reported
              then { StateHash.value w.m_resolverStates k with
                     state := ResolverState.Uninstalled }
              else StateHash.value w.m_resolverStates k)
        ∧ (∀ k, StateHash.contains (ks.foldl (sanityCheckAt cfg) w).m_resolverStates k
            = StateHash.contains w.m_resolverStates k)
        ∧ (ks.foldl (sanityCheckAt cfg) w).fs = w.fs
        ∧ (ks.foldl (sanityCheckAt cfg) w).m_resolvers = w.m_resolvers
        ∧ (ks.foldl (sanityCheckAt cfg) w).accounts = w.accounts
        ∧ (ks.foldl (sanityCheckAt cfg) w).m_resolverJobsLoaded = w.m_resolverJobsLoaded := by
  induction ks with
  | nil =>
    intro w
    exact ⟨[], by simp, List.nodup_nil, by simp, by simp, by simp, rfl, rfl, rfl, rfl⟩
  | cons r rest ih =>
    intro w
    obtain ⟨hfs, hres, hacc, hjobs, htr, hval, hcon⟩ := sanityCheckAt_spec cfg w r
    obtain ⟨L, hL1, hL2, hL3, hL4, hL5, hL6, hL7, hL8, hL9⟩ := ih (sanityCheckAt cfg w r)
    simp only [List.foldl_cons]
    by_cases hs : isStale cfg w.fs r (StateHash.value w.m_resolverStates r) = true
    · -- the record of `r` is stale: it is reported now and never again
      have hr1 : isStale cfg (sanityCheckAt cfg w r).fs r
          (StateHash.value (sanityCheckAt cfg w r).m_resolverStates r) = false := by
        rw [hval r]; simp [hs, isStale_uninstalled]
      have hrL : r ∉ L := by
        intro hmem
        have := ((hL3 r).1 hmem).2
        rw [hr1] at this
        exact Bool.false_ne_true this
      have hother : ∀ k, k ≠ r →
          StateHash.value (sanityCheckAt cfg w r).m_resolverStates k
            = StateHash.value w.m_resolverStates k := by
        intro k hk
        rw [hval k]; simp [hk]
      refine ⟨r :: L, ?_, List.nodup_cons.2 ⟨hrL, hL2⟩, ?_, ?_, ?_, ?_, ?_, ?_, ?_⟩
      · rw [hL1, htr]; simp [hs]
      · intro k
        by_cases hk : k = r
        · subst hk; simp [hs]
        · rw [List.mem_cons, hL3 k, hfs, hother k hk]
          simp [hk]
      · intro k
        rw [hL4 k]
        by_cases hk : k = r
        · subst hk
          simp [hrL, hval, hs]
        · rw [hother k hk]
          simp [hk]
      · intro k; rw [hL5 k, hcon k]
      · rw [hL6, hfs]
      · rw [hL7, hres]
      · rw [hL8, hacc]
      · rw [hL9, hjobs]
    · -- nothing changes at `r`
      have hsame : ∀ k, StateHash.value (sanityCheckAt cfg w r).m_resolverStates k
          = StateHash.value w.m_resolverStates k := by
        intro k
        rw [hval k]; simp [hs]
      refine ⟨L, ?_, hL2, ?_, ?_, ?_, ?_, ?_, ?_, ?_⟩
      · rw [hL1, htr]; simp [hs]
      · intro k
        rw [hL3 k, hfs, hsame k]
        by_cases hk : k = r
        · subst hk; simp [hs]
        · simp [hk]
      · intro k
        rw [hL4 k, hsame k]
      · intro k; rw [hL5 k, hcon k]
      · rw [hL6, hfs]
      · rw [hL7, hres]
      · rw [hL8, hacc]
      · rw [hL9, hjobs]

/-! ## C4: the stale-record check -/

/-- C4. For every world, the sanity check at the start of `resolversList`
persists `Uninstalled` for a list `reported` of ids, each once, and these are
exactly the ids with a record that is in state Installed or NeedsUpgrade, is not
binary, and has no package directory on disk.  The records of exactly these ids
get state Uninstalled; every other record, the set of keys, the disk, the
registry and the accounts are unchanged. -/
theorem sanityCheck_exact (cfg : Config) (w : World) :
    ∃ reported : List String,
      (sanityCheck cfg w).trace
          = w.trace ++ reported.map
              (fun k => Effect.setAtticaResolverState k ResolverState.Uninstalled)
        ∧ reported.Nodup
        ∧ (∀ k, k ∈ reported
            ↔ StateHash.contains w.m_resolverStates k = true
              ∧ ((StateHash.value w.m_resolverStates k).state = ResolverState.Installed
                ∨ (StateHash.value w.m_resolverStates k).state = ResolverState.NeedsUpgrade)
              ∧ (StateHash.value w.m_resolverStates k).binary = false
              ∧ resolverDirExists cfg w.fs k = false)
        ∧ (∀ k, StateHash.value (sanityCheck cfg w).m_resolverStates k
            = if k ∈ reported
              then { StateHash.value w.m_resolverStates k with
                     state := ResolverState.Uninstalled }
              else StateHash.value w.m_resolverStates k)
        ∧ (∀ k, StateHash.contains (sanityCheck cfg w).m_resolverStates k
            = StateHash.contains w.m_resolverStates k)
        ∧ (sanityCheck cfg w).fs = w.fs
        ∧ (sanityCheck cfg w).m_resolvers = w.m_resolvers
        ∧ (sanityCheck cfg w).accounts = w.accounts := by
  obtain ⟨L, h1, h2, h3, h4, h5, h6, h7, h8, _⟩ :=
    sanityCheck_fold cfg (StateHash.keys w.m_resolverStates) w
  refine ⟨L, h1, h2, ?_, h4, h5, h6, h7, h8⟩
  intro k
  rw [h3 k, StateHash.mem_keys_iff, isStale_iff]

/-! ## The version pass -/

theorem upgradeDue_overlay (cfg : Config) (r : Resolver) (u : Int) (c : Content) :
    upgradeDue cfg r (overlayRating u c) = upgradeDue cfg r c := by
  unfold overlayRating upgradeDue Content.setRating
  split <;> rfl

theorem overlayRating_id (u : Int) (c : Content) : (overlayRating u c).id = c.id := by
  unfold overlayRating Content.setRating
  split <;> rfl

theorem overlayRating_version (u : Int) (c : Content) :
    (overlayRating u c).version = c.version := by
  unfold overlayRating Content.setRating
  split <;> rfl

/-- The inner loop of `syncServerData`, in closed form. -/
theorem syncInner_spec (cfg : Config) (id : String) (r : Resolver) :
    ∀ (reg : List Content) (h : StateHash) (tr : List Effect),
      (syncInner cfg id r reg h tr).1
          = reg.map (fun c =>
              if c.id = id then overlayRating (StateHash.value h id).userRating c else c)
        ∧ (syncInner cfg id r reg h tr).2.2
          = tr ++ (reg.filter (fun c => decide (c.id = id) && upgradeDue cfg r c)).map
              (fun c => Effect.queueUpgradeResolver
                (overlayRating (StateHash.value h id).userRating c))
        ∧ (∀ k, StateHash.value (syncInner cfg id r reg h tr).2.1 k
            = if k = id ∧ reg.any (fun c => decide (c.id = id) && upgradeDue cfg r c) = true
              then { StateHash.value h k with state := ResolverState.NeedsUpgrade }
              else StateHash.value h k)
        ∧ (∀ k, StateHash.contains (syncInner cfg id r reg h tr).2.1 k
            = (StateHash.contains h k
                || (decide (k = id)
                    && reg.any (fun c => decide (c.id = id) && upgradeDue cfg r c)))) := by
  intro reg
  induction reg with
  | nil =>
    intro h tr
    simp [syncInner]
  | cons c rest ih =>
    intro h tr
    by_cases hc : id = c.id
    · have hc' : c.id = id := hc.symm
      by_cases hd : upgradeDue cfg r c = true
      · obtain ⟨i1, i2, i3, i4⟩ := ih
          (StateHash.modify h id (fun x => { x with state := ResolverState.NeedsUpgrade }))
          (tr ++ [Effect.queueUpgradeResolver
            (overlayRating (StateHash.value h id).userRating c)])
        have hu : (StateHash.value
            (StateHash.modify h id (fun x => { x with state := ResolverState.NeedsUpgrade }))
            id).userRating = (StateHash.value h id).userRating := by
          simp [StateHash.value_modify]
        rw [hu] at i1 i2
        simp only [syncInner, hc, ne_eq, not_true_eq_false, if_false, upgradeDue_overlay, hd,
          if_true]
        rw [← hc]
        refine ⟨?_, ?_, ?_, ?_⟩
        · rw [i1]; simp [hc']
        · rw [i2]; simp [hc', hd]
        · intro k
          rw [i3 k]
          by_cases hk : k = id
          · subst hk
            simp [StateHash.value_modify, hc', hd]
          · simp [StateHash.value_modify, hk]
        · intro k
          rw [i4 k]
          by_cases hk : k = id
          · subst hk
            simp [StateHash.contains_modify, hc', hd]
          · simp [StateHash.contains_modify, hk]
      · obtain ⟨i1, i2, i3, i4⟩ := ih h tr
        have hd' : upgradeDue cfg r c = false := by simpa using hd
        simp only [syncInner, hc, ne_eq, not_true_eq_false, if_false, upgradeDue_overlay, hd',
          Bool.false_eq_true]
        rw [← hc]
        refine ⟨?_, ?_, ?_, ?_⟩
        · rw [i1]; simp [hc']
        · rw [i2]; simp [hc', hd']
        · intro k
          rw [i3 k]; simp [hc', hd']
        · intro k
          rw [i4 k]; simp [hc', hd']
    · obtain ⟨i1, i2, i3, i4⟩ := ih h tr
      have hc' : ¬ c.id = id := fun e => hc e.symm
      simp only [syncInner, hc, ne_eq, not_false_eq_true, if_true]
      refine ⟨?_, ?_, ?_, ?_⟩
      · rw [i1]; simp [hc']
      · rw [i2]; simp [hc']
      · intro k
        rw [i3 k]; simp [hc']
      · intro k
        rw [i4 k]; simp [hc']

theorem upgradeDue_state (cfg : Config) (r : Resolver) (c : Content)
    (h : upgradeDue cfg r c = true) :
    r.state = ResolverState.Installed ∨ r.state = ResolverState.NeedsUpgrade := by
  simp [upgradeDue] at h
  exact h.1.1

theorem upgradeDue_needsUpgrade (cfg : Config) (r : Resolver) (c : Content)
    (h : r.state = ResolverState.Installed ∨ r.state = ResolverState.NeedsUpgrade) :
    upgradeDue cfg { r with state := ResolverState.NeedsUpgrade } c = upgradeDue cfg r c := by
  simp [upgradeDue, h]

theorem upgradeFound_state (cfg : Config) (w : World) (k : String)
    (h : upgradeFound cfg w k = true) :
    (StateHash.value w.m_resolverStates k).state = ResolverState.Installed
      ∨ (StateHash.value w.m_resolverStates k).state = ResolverState.NeedsUpgrade := by
  simp only [upgradeFound, List.any_eq_true, Bool.and_eq_true] at h
  obtain ⟨c, _, _, hd⟩ := h
  exact upgradeDue_state cfg _ c hd

theorem overlayRating_setRating (u v : Int) (c : Content) :
    (overlayRating u c).setRating v = c.setRating v := by
  unfold overlayRating Content.setRating
  split <;> rfl

/-- One iteration of the outer loop of `syncServerData`, in closed form. -/
theorem syncServerDataAt_spec (cfg : Config) (w : World) (id : String) :
    (syncServerDataAt cfg w id).m_resolvers
        = w.m_resolvers.map (fun c =>
            if c.id = id
            then overlayRating (StateHash.value w.m_resolverStates id).userRating c else c)
      ∧ (syncServerDataAt cfg w id).trace
        = w.trace ++ (w.m_resolvers.filter (fun c =>
              decide (c.id = id) && upgradeDue cfg (StateHash.value w.m_resolverStates id) c)).map
            (fun c => Effect.queueUpgradeResolver
              (overlayRating (StateHash.value w.m_resolverStates id).userRating c))
      ∧ (∀ k, StateHash.value (syncServerDataAt cfg w id).m_resolverStates k
          = if k = id ∧ upgradeFound cfg w id = true
            then { StateHash.value w.m_resolverStates k with
                   state := ResolverState.NeedsUpgrade }
            else StateHash.value w.m_resolverStates k)
      ∧ (∀ k, StateHash.contains (syncServerDataAt cfg w id).m_resolverStates k
          = StateHash.contains w.m_resolverStates k)
      ∧ (syncServerDataAt cfg w id).fs = w.fs
      ∧ (syncServerDataAt cfg w id).accounts = w.accounts
      ∧ (syncServerDataAt cfg w id).m_resolverJobsLoaded = w.m_resolverJobsLoaded := by
  obtain ⟨h1, h2, h3, h4⟩ := syncInner_spec cfg id (StateHash.value w.m_resolverStates id)
    w.m_resolvers w.m_resolverStates w.trace
  refine ⟨h1, h2, h3, ?_, rfl, rfl, rfl⟩
  intro k
  show StateHash.contains (syncInner cfg id (StateHash.value w.m_resolverStates id)
    w.m_resolvers w.m_resolverStates w.trace).2.1 k = _
  rw [h4 k]
  by_cases hk : k = id
  · subst hk
    by_cases hf : upgradeFound cfg w k = true
    · have hc : StateHash.contains w.m_resolverStates k = true :=
        StateHash.contains_of_state_ne _ _ (by
          rcases upgradeFound_state cfg w k hf with e | e <;> rw [e] <;> decide)
      simp [hc]
    · have hf' : upgradeFound cfg w k = false := by simpa using hf
      simp only [upgradeFound] at hf'
      simp [hf']
  · simp [hk]

/-- The upgrade test on a record is the same before and after an iteration. -/
theorem upgradeDue_after_step (cfg : Config) (w : World) (id k : String) (c : Content) :
    upgradeDue cfg (StateHash.value (syncServerDataAt cfg w id).m_resolverStates k) c
      = upgradeDue cfg (StateHash.value w.m_resolverStates k) c := by
  rw [(syncServerDataAt_spec cfg w id).2.2.1 k]
  by_cases hk : k = id ∧ upgradeFound cfg w id = true
  · rw [if_pos hk]
    obtain ⟨hk1, hk2⟩ := hk
    subst hk1
    exact upgradeDue_needsUpgrade cfg _ c (upgradeFound_state cfg w k hk2)
  · rw [if_neg hk]

theorem upgradeFound_after_step (cfg : Config) (w : World) (id k : String) :
    upgradeFound cfg (syncServerDataAt cfg w id) k = upgradeFound cfg w k := by
  unfold upgradeFound
  rw [(syncServerDataAt_spec cfg w id).1, List.any_map]
  congr 1
  funext c
  simp only [Function.comp]
  rw [upgradeDue_after_step]
  by_cases hc : c.id = id
  · simp [hc, overlayRating_id, upgradeDue_overlay]
  · simp [hc]

/-- The outer loop of `syncServerData` over any list of keys. -/
theorem syncServerData_fold (cfg : Config) (ks : List String) : ∀ w : World,
    ∃ queued : List Content,
      (ks.foldl (syncServerDataAt cfg) w).trace
          = w.trace ++ queued.map Effect.queueUpgradeResolver
        ∧ (∀ c ∈ queued, c.id ∈ ks
            ∧ upgradeDue cfg (StateHash.value w.m_resolverStates c.id) c = true
            ∧ ∃ c0 ∈ w.m_resolvers, c0.id = c.id ∧ c0.version = c.version)
        ∧ (∀ k ∈ ks, upgradeFound cfg w k = true → ∃ c ∈ queued, c.id = k)
        ∧ (∀ k, StateHash.value (ks.foldl (syncServerDataAt cfg) w).m_resolverStates k
            = if k ∈ ks ∧ upgradeFound cfg w k = true
              then { StateHash.value w.m_resolverStates k with
                     state := ResolverState.NeedsUpgrade }
              else StateHash.value w.m_resolverStates k)
        ∧ (∀ k, StateHash.contains (ks.foldl (syncServerDataAt cfg) w).m_resolverStates k
            = StateHash.contains w.m_resolverStates k)
        ∧ (ks.foldl (syncServerDataAt cfg) w).m_resolvers.map (fun c => (c.id, c.version))
            = w.m_resolvers.map (fun c => (c.id, c.version))
        ∧ (ks.foldl (syncServerDataAt cfg) w).fs = w.fs
        ∧ (ks.foldl (syncServerDataAt cfg) w).accounts = w.accounts
        ∧ (ks.foldl (syncServerDataAt cfg) w).m_resolverJobsLoaded = w.m_resolverJobsLoaded
        ∧ (ks.foldl (syncServerDataAt cfg) w).m_resolvers.map (fun c => c.setRating 0)
            = w.m_resolvers.map (fun c => c.setRating 0) := by
  induction ks with
  | nil =>
    intro w
    exact ⟨[], by simp, by simp, by simp, by simp, by simp, rfl, rfl, rfl, rfl, rfl⟩
  | cons r rest ih =>
    intro w
    obtain ⟨s1, s2, s3, s4, s5, s6, s7⟩ := syncServerDataAt_spec cfg w r
    obtain ⟨Q, q1, q2, q3, q4, q5, q6, q7, q8, q9, q10⟩ := ih (syncServerDataAt cfg w r)
    simp only [List.foldl_cons]
    have hmap : (syncServerDataAt cfg w r).m_resolvers.map (fun c => (c.id, c.version))
        = w.m_resolvers.map (fun c => (c.id, c.version)) := by
      rw [s1, List.map_map]
      apply List.map_congr_left
      intro c _
      by_cases hc : c.id = r
      · simp [hc, overlayRating_id, overlayRating_version]
      · simp [hc]
    refine ⟨(w.m_resolvers.filter (fun c =>
        decide (c.id = r) && upgradeDue cfg (StateHash.value w.m_resolverStates r) c)).map
          (overlayRating (StateHash.value w.m_resolverStates r).userRating) ++ Q,
      ?_, ?_, ?_, ?_, ?_, ?_, ?_, ?_, ?_, ?_⟩
    · rw [q1, s2]
      simp [List.map_map, Function.comp]
    · intro c hc
      rcases List.mem_append.1 hc with hc | hc
      · obtain ⟨c0, hc0, rfl⟩ := List.mem_map.1 hc
        obtain ⟨hmem, hp⟩ := List.mem_filter.1 hc0
        simp only [Bool.and_eq_true, decide_eq_true_eq] at hp
        refine ⟨by simp [overlayRating_id, hp.1], ?_, c0, hmem, ?_, ?_⟩
        · rw [overlayRating_id, upgradeDue_overlay, hp.1]; exact hp.2
        · rw [overlayRating_id]
        · rw [overlayRating_version]
      · obtain ⟨h1, h2, c0, hc0, h3, h4⟩ := q2 c hc
        refine ⟨List.mem_cons_of_mem _ h1, ?_, ?_⟩
        · rw [upgradeDue_after_step] at h2; exact h2
        · have : (c0.id, c0.version)
              ∈ (syncServerDataAt cfg w r).m_resolvers.map (fun c => (c.id, c.version)) :=
            List.mem_map.2 ⟨c0, hc0, rfl⟩
          rw [hmap] at this
          obtain ⟨c1, hc1, he⟩ := List.mem_map.1 this
          simp only [Prod.mk.injEq] at he
          exact ⟨c1, hc1, he.1.trans h3, he.2.trans h4⟩
    · intro k hk hf
      rcases List.mem_cons.1 hk with hk | hk
      · subst hk
        simp only [upgradeFound, List.any_eq_true, Bool.and_eq_true, decide_eq_true_eq] at hf
        obtain ⟨c, hc, hid, hd⟩ := hf
        refine ⟨overlayRating (StateHash.value w.m_resolverStates k).userRating c,
          List.mem_append.2 (Or.inl (List.mem_map.2 ⟨c, ?_, rfl⟩)), ?_⟩
        · exact List.mem_filter.2 ⟨hc, by simp [hid, hd]⟩
        · rw [overlayRating_id, hid]
      · obtain ⟨c, hc, hid⟩ := q3 k hk (by rw [upgradeFound_after_step]; exact hf)
        exact ⟨c, List.mem_append.2 (Or.inr hc), hid⟩
    · intro k
      rw [q4 k, upgradeFound_after_step, s3 k]
      by_cases hf : upgradeFound cfg w k = true
      · by_cases hk : k = r
        · subst hk
          by_cases hm : k ∈ rest
          · simp [hf, hm]
          · simp [hf, hm]
        · simp [hf, hk]
      · by_cases hk : k = r
        · subst hk
          simp [hf]
        · simp [hf, hk]
    · intro k; rw [q5 k, s4 k]
    · rw [q6, hmap]
    · rw [q7, s5]
    · rw [q8, s6]
    · rw [q9, s7]
    · rw [q10, s1, List.map_map]
      apply List.map_congr_left
      intro c _
      by_cases hc : c.id = r
      · simp only [Function.comp, if_pos hc, overlayRating_setRating]
      · simp [hc]

/-- When an empty version is never reported as newer, the test of the code
coincides with the condition of the spec. -/
theorem upgradeFound_iff (cfg : Config) (w : World) (k : String)
    (hnv : ∀ o, cfg.newerVersion o "" = false) :
    upgradeFound cfg w k = true ↔ NewerInCatalog cfg w k := by
  unfold NewerInCatalog
  constructor
  · intro hf
    have hs := upgradeFound_state cfg w k hf
    refine ⟨StateHash.contains_of_state_ne _ _ (by rcases hs with e | e <;> rw [e] <;> decide),
      hs, ?_⟩
    simp only [upgradeFound, List.any_eq_true, Bool.and_eq_true, decide_eq_true_eq] at hf
    obtain ⟨c, hc, hid, hd⟩ := hf
    simp only [upgradeDue, Bool.and_eq_true, decide_eq_true_eq] at hd
    exact ⟨c, hc, hid, hd.2⟩
  · rintro ⟨_, hs, c, hc, hid, hn⟩
    simp only [upgradeFound, List.any_eq_true, Bool.and_eq_true, decide_eq_true_eq]
    refine ⟨c, hc, hid, ?_⟩
    have hv : c.version ≠ "" := by
      intro e
      rw [e, hnv] at hn
      exact Bool.false_ne_true hn
    simp [upgradeDue, hs, hv, hn]

/-! ## C5: the version pass -/

/-- C5. Provided the version comparison never reports an empty version as
newer, the version pass `syncServerData` queues upgrades `queued` such that an
upgrade is queued for an id exactly when the id is in the state map with state
Installed or NeedsUpgrade and a registry entry of that id has a version newer
than the recorded one; the records of exactly these ids get state NeedsUpgrade,
and every other record is left as it was. -/
theorem syncServerData_exact (cfg : Config) (w : World)
    (hnv : ∀ o, cfg.newerVersion o "" = false) :
    ∃ queued : List Content,
      (syncServerData cfg w).trace = w.trace ++ queued.map Effect.queueUpgradeResolver
        ∧ (∀ k, (∃ c ∈ queued, c.id = k) ↔ NewerInCatalog cfg w k)
        ∧ (∀ k, NewerInCatalog cfg w k →
            StateHash.value (syncServerData cfg w).m_resolverStates k
              = { StateHash.value w.m_resolverStates k with
                  state := ResolverState.NeedsUpgrade })
        ∧ (∀ k, ¬ NewerInCatalog cfg w k →
            StateHash.value (syncServerData cfg w).m_resolverStates k
              = StateHash.value w.m_resolverStates k)
        ∧ (∀ k, StateHash.contains (syncServerData cfg w).m_resolverStates k
            = StateHash.contains w.m_resolverStates k) := by
  obtain ⟨Q, q1, q2, q3, q4, q5, _⟩ :=
    syncServerData_fold cfg (StateHash.keys w.m_resolverStates) w
  have hkey : ∀ k, NewerInCatalog cfg w k → k ∈ StateHash.keys w.m_resolverStates := by
    intro k hk
    exact (StateHash.mem_keys_iff _ k).2 hk.1
  refine ⟨Q, q1, ?_, ?_, ?_, q5⟩
  · intro k
    constructor
    · rintro ⟨c, hc, rfl⟩
      obtain ⟨_, hd, c0, hc0, hid, hv⟩ := q2 c hc
      rw [← upgradeFound_iff cfg w c.id hnv]
      simp only [upgradeFound, List.any_eq_true, Bool.and_eq_true, decide_eq_true_eq]
      refine ⟨c0, hc0, hid, ?_⟩
      simp only [upgradeDue, hv] at hd ⊢
      exact hd
    · intro hk
      exact q3 k (hkey k hk) ((upgradeFound_iff cfg w k hnv).2 hk)
  · intro k hk
    show StateHash.value
      ((StateHash.keys w.m_resolverStates).foldl (syncServerDataAt cfg) w).m_resolverStates k = _
    rw [q4 k, if_pos ⟨hkey k hk, (upgradeFound_iff cfg w k hnv).2 hk⟩]
  · intro k hk
    show StateHash.value
      ((StateHash.keys w.m_resolverStates).foldl (syncServerDataAt cfg) w).m_resolverStates k = _
    rw [q4 k, if_neg]
    rintro ⟨_, hf⟩
    exact hk ((upgradeFound_iff cfg w k hnv).1 hf)

theorem syncServerData_exact_witness :
    (∀ o, Example.cfg.newerVersion o "" = false)
      ∧ ∃ queued : List Content,
        (syncServerData Example.cfg Example.installed10).trace
            = Example.installed10.trace ++ queued.map Effect.queueUpgradeResolver
          ∧ (∀ k, (∃ c ∈ queued, c.id = k) ↔ NewerInCatalog Example.cfg Example.installed10 k)
          ∧ (∀ k, NewerInCatalog Example.cfg Example.installed10 k →
              StateHash.value (syncServerData Example.cfg Example.installed10).m_resolverStates k
                = { StateHash.value Example.installed10.m_resolverStates k with
                    state := ResolverState.NeedsUpgrade })
          ∧ (∀ k, ¬ NewerInCatalog Example.cfg Example.installed10 k →
              StateHash.value (syncServerData Example.cfg Example.installed10).m_resolverStates k
                = StateHash.value Example.installed10.m_resolverStates k)
          ∧ (∀ k, StateHash.contains
                (syncServerData Example.cfg Example.installed10).m_resolverStates k
              = StateHash.contains Example.installed10.m_resolverStates k) :=
  ⟨fun o => by simp [Example.cfg, Example.newer],
   syncServerData_exact Example.cfg Example.installed10
     (fun o => by simp [Example.cfg, Example.newer])⟩

/-! ## The two listing handlers -/

theorem filter_loaded_append_map {α : Type} (tr : List Effect) (l : List α) (f : α → Effect)
    (hf : ∀ x, (f x).isResolversLoaded = false) :
    (tr ++ l.map f).filter Effect.isResolversLoaded = tr.filter Effect.isResolversLoaded := by
  rw [List.filter_append]
  have : (l.map f).filter Effect.isResolversLoaded = [] := by
    rw [List.filter_eq_nil_iff]
    intro e he
    obtain ⟨x, _, rfl⟩ := List.mem_map.1 he
    simp [hf x]
  rw [this, List.append_nil]

theorem loadPixmapsFromCache_frame (cfg : Config) (w : World) :
    (loadPixmapsFromCache cfg w).trace = w.trace
      ∧ (loadPixmapsFromCache cfg w).m_resolvers = w.m_resolvers
      ∧ (loadPixmapsFromCache cfg w).m_resolverJobsLoaded = w.m_resolverJobsLoaded
      ∧ (loadPixmapsFromCache cfg w).fs = w.fs
      ∧ (loadPixmapsFromCache cfg w).accounts = w.accounts := by
  unfold loadPixmapsFromCache
  split <;> exact ⟨rfl, rfl, rfl, rfl, rfl⟩

theorem registerResolverAt_frame (w : World) (c : Content) :
    (registerResolverAt w c).trace.filter Effect.isResolversLoaded
        = w.trace.filter Effect.isResolversLoaded
      ∧ (registerResolverAt w c).m_resolvers = w.m_resolvers
      ∧ (registerResolverAt w c).m_resolverJobsLoaded = w.m_resolverJobsLoaded
      ∧ (registerResolverAt w c).fs = w.fs
      ∧ (registerResolverAt w c).accounts = w.accounts := by
  unfold registerResolverAt
  refine ⟨?_, rfl, rfl, rfl, rfl⟩
  simp only [List.filter_append]
  split
  · split <;> simp [Effect.isResolversLoaded]
  · simp

theorem registerResolver_fold (l : List Content) : ∀ w : World,
    (l.foldl registerResolverAt w).trace.filter Effect.isResolversLoaded
        = w.trace.filter Effect.isResolversLoaded
      ∧ (l.foldl registerResolverAt w).m_resolvers = w.m_resolvers
      ∧ (l.foldl registerResolverAt w).m_resolverJobsLoaded = w.m_resolverJobsLoaded
      ∧ (l.foldl registerResolverAt w).fs = w.fs
      ∧ (l.foldl registerResolverAt w).accounts = w.accounts := by
  induction l with
  | nil => intro w; exact ⟨rfl, rfl, rfl, rfl, rfl⟩
  | cons c rest ih =>
    intro w
    obtain ⟨a1, a2, a3, a4, a5⟩ := registerResolverAt_frame w c
    obtain ⟨b1, b2, b3, b4, b5⟩ := ih (registerResolverAt w c)
    simp only [List.foldl_cons]
    exact ⟨b1.trans a1, b2.trans a2, b3.trans a3, b4.trans a4, b5.trans a5⟩

theorem binaryResolver_fold (cfg : Config) (l : List Content) : ∀ w : World,
    (l.foldl (binaryResolverAt cfg) w).trace = w.trace
      ∧ (l.foldl (binaryResolverAt cfg) w).m_resolvers
        = w.m_resolvers ++ l.filter (isForPlatform cfg)
      ∧ (l.foldl (binaryResolverAt cfg) w).m_resolverJobsLoaded = w.m_resolverJobsLoaded
      ∧ (l.foldl (binaryResolverAt cfg) w).fs = w.fs
      ∧ (l.foldl (binaryResolverAt cfg) w).accounts = w.accounts := by
  induction l with
  | nil => intro w; simp
  | cons c rest ih =>
    intro w
    obtain ⟨b1, b2, b3, b4, b5⟩ := ih (binaryResolverAt cfg w c)
    simp only [List.foldl_cons]
    by_cases hc : isForPlatform cfg c = true
    · have hw : binaryResolverAt cfg w c =
          { w with
            m_resolvers := w.m_resolvers ++ [c]
            m_resolverStates :=
              if ¬ StateHash.contains w.m_resolverStates c.id then
                StateHash.insert w.m_resolverStates c.id { Resolver.init with binary := true }
              else w.m_resolverStates } := by
        simp [binaryResolverAt, hc]
      rw [hw] at b1 b2 b3 b4 b5
      rw [hw]
      refine ⟨b1, ?_, b3, b4, b5⟩
      rw [b2]
      simp [List.filter_cons, hc]
    · have hw : binaryResolverAt cfg w c = w := by simp [binaryResolverAt, hc]
      rw [hw] at b1 b2 b3 b4 b5
      rw [hw]
      refine ⟨b1, ?_, b3, b4, b5⟩
      rw [b2]
      simp [List.filter_cons, hc]

/-- The world of `resolversList` just before the job counter is bumped. -/
theorem resolversList_before_count (cfg : Config) (w : World) (items : List Content) :
    ∃ v : World, resolversList cfg w items = countJob v
      ∧ v.trace.filter Effect.isResolversLoaded = w.trace.filter Effect.isResolversLoaded
      ∧ v.m_resolvers.map (fun c => c.setRating 0)
        = (w.m_resolvers ++ items).map (fun c => c.setRating 0)
      ∧ v.m_resolverJobsLoaded = w.m_resolverJobsLoaded := by
  refine ⟨_, rfl, ?_, ?_, ?_⟩
  · obtain ⟨Q, q1, _⟩ := syncServerData_fold cfg
      (StateHash.keys ((loadPixmapsFromCache cfg (sanityCheck cfg
        { w with m_resolvers := w.m_resolvers ++ items })).m_resolvers.foldl registerResolverAt
        (loadPixmapsFromCache cfg (sanityCheck cfg
          { w with m_resolvers := w.m_resolvers ++ items }))).m_resolverStates)
      ((loadPixmapsFromCache cfg (sanityCheck cfg
        { w with m_resolvers := w.m_resolvers ++ items })).m_resolvers.foldl registerResolverAt
        (loadPixmapsFromCache cfg (sanityCheck cfg
          { w with m_resolvers := w.m_resolvers ++ items })))
    obtain ⟨L, l1, _⟩ := sanityCheck_fold cfg
      (StateHash.keys w.m_resolverStates) { w with m_resolvers := w.m_resolvers ++ items }
    show (syncServerData cfg _).trace.filter Effect.isResolversLoaded = _
    unfold syncServerData
    rw [q1, filter_loaded_append_map _ Q Effect.queueUpgradeResolver (fun _ => rfl),
      (registerResolver_fold _ _).1,
      (loadPixmapsFromCache_frame cfg _).1]
    unfold sanityCheck
    rw [l1, filter_loaded_append_map _ L
      (fun k => Effect.setAtticaResolverState k ResolverState.Uninstalled) (fun _ => rfl)]
  · obtain ⟨Q, _, _, _, _, _, _, _, _, _, q10⟩ := syncServerData_fold cfg
      (StateHash.keys ((loadPixmapsFromCache cfg (sanityCheck cfg
        { w with m_resolvers := w.m_resolvers ++ items })).m_resolvers.foldl registerResolverAt
        (loadPixmapsFromCache cfg (sanityCheck cfg
          { w with m_resolvers := w.m_resolvers ++ items }))).m_resolverStates)
      ((loadPixmapsFromCache cfg (sanityCheck cfg
        { w with m_resolvers := w.m_resolvers ++ items })).m_resolvers.foldl registerResolverAt
        (loadPixmapsFromCache cfg (sanityCheck cfg
          { w with m_resolvers := w.m_resolvers ++ items })))
    obtain ⟨L, _, _, _, _, _, _, l7, _⟩ := sanityCheck_fold cfg
      (StateHash.keys w.m_resolverStates) { w with m_resolvers := w.m_resolvers ++ items }
    show (syncServerData cfg _).m_resolvers.map _ = _
    unfold syncServerData
    rw [q10, (registerResolver_fold _ _).2.1, (loadPixmapsFromCache_frame cfg _).2.1]
    unfold sanityCheck
    rw [l7]
  · obtain ⟨Q, _, _, _, _, _, _, _, _, q9, _⟩ := syncServerData_fold cfg
      (StateHash.keys ((loadPixmapsFromCache cfg (sanityCheck cfg
        { w with m_resolvers := w.m_resolvers ++ items })).m_resolvers.foldl registerResolverAt
        (loadPixmapsFromCache cfg (sanityCheck cfg
          { w with m_resolvers := w.m_resolvers ++ items }))).m_resolverStates)
      ((loadPixmapsFromCache cfg (sanityCheck cfg
        { w with m_resolvers := w.m_resolvers ++ items })).m_resolvers.foldl registerResolverAt
        (loadPixmapsFromCache cfg (sanityCheck cfg
          { w with m_resolvers := w.m_resolvers ++ items })))
    obtain ⟨L, _, _, _, _, _, _, _, _, l9⟩ := sanityCheck_fold cfg
      (StateHash.keys w.m_resolverStates) { w with m_resolvers := w.m_resolvers ++ items }
    show (syncServerData cfg _).m_resolverJobsLoaded = _
    unfold syncServerData
    rw [q9, (registerResolver_fold _ _).2.2.1, (loadPixmapsFromCache_frame cfg _).2.2.1]
    unfold sanityCheck
    rw [l9]

theorem countJob_first (v : World) (h : v.m_resolverJobsLoaded = 0) :
    (countJob v).trace = v.trace ∧ (countJob v).m_resolvers = v.m_resolvers
      ∧ (countJob v).m_resolverJobsLoaded = 1 := by
  simp [countJob, h]

theorem countJob_second (v : World) (h : v.m_resolverJobsLoaded = 1) :
    (countJob v).trace = v.trace ++ [Effect.resolversLoaded v.m_resolvers]
      ∧ (countJob v).m_resolvers = v.m_resolvers := by
  simp [countJob, h]

/-- A first listing completion of either kind emits nothing; a second one emits
`resolversLoaded` once, as its last effect, with the registry of that moment. -/
theorem resolversList_first (cfg : Config) (w : World) (items : List Content)
    (hj : w.m_resolverJobsLoaded = 0) :
    (resolversList cfg w items).trace.filter Effect.isResolversLoaded
        = w.trace.filter Effect.isResolversLoaded
      ∧ (resolversList cfg w items).m_resolvers.map (fun c => c.setRating 0)
        = (w.m_resolvers ++ items).map (fun c => c.setRating 0)
      ∧ (resolversList cfg w items).m_resolverJobsLoaded = 1 := by
  obtain ⟨v, hv, v1, v2, v3⟩ := resolversList_before_count cfg w items
  obtain ⟨c1, c2, c3⟩ := countJob_first v (v3.trans hj)
  rw [hv, c1, c2, c3]
  exact ⟨v1, v2, rfl⟩

theorem resolversList_second (cfg : Config) (w : World) (items : List Content)
    (hj : w.m_resolverJobsLoaded = 1) :
    (resolversList cfg w items).trace.filter Effect.isResolversLoaded
        = w.trace.filter Effect.isResolversLoaded
          ++ [Effect.resolversLoaded (resolversList cfg w items).m_resolvers]
      ∧ (resolversList cfg w items).trace.getLast?
        = some (Effect.resolversLoaded (resolversList cfg w items).m_resolvers)
      ∧ (resolversList cfg w items).m_resolvers.map (fun c => c.setRating 0)
        = (w.m_resolvers ++ items).map (fun c => c.setRating 0) := by
  obtain ⟨v, hv, v1, v2, v3⟩ := resolversList_before_count cfg w items
  obtain ⟨c1, c2⟩ := countJob_second v (v3.trans hj)
  rw [hv, c1, c2]
  refine ⟨?_, by simp, v2⟩
  rw [List.filter_append, v1]
  simp [Effect.isResolversLoaded]

theorem binaryResolversList_first (cfg : Config) (w : World) (items : List Content)
    (hj : w.m_resolverJobsLoaded = 0) :
    (binaryResolversList cfg w items).trace = w.trace
      ∧ (binaryResolversList cfg w items).m_resolvers
        = w.m_resolvers ++ items.filter (isForPlatform cfg)
      ∧ (binaryResolversList cfg w items).m_resolverJobsLoaded = 1 := by
  obtain ⟨b1, b2, b3, _⟩ := binaryResolver_fold cfg items w
  obtain ⟨c1, c2, c3⟩ := countJob_first (items.foldl (binaryResolverAt cfg) w) (b3.trans hj)
  unfold binaryResolversList
  rw [c1, c2, c3]
  exact ⟨b1, b2, rfl⟩

theorem binaryResolversList_second (cfg : Config) (w : World) (items : List Content)
    (hj : w.m_resolverJobsLoaded = 1) :
    (binaryResolversList cfg w items).trace
        = w.trace ++ [Effect.resolversLoaded (binaryResolversList cfg w items).m_resolvers]
      ∧ (binaryResolversList cfg w items).m_resolvers
        = w.m_resolvers ++ items.filter (isForPlatform cfg) := by
  obtain ⟨b1, b2, b3, _⟩ := binaryResolver_fold cfg items w
  obtain ⟨c1, c2⟩ := countJob_second (items.foldl (binaryResolverAt cfg) w) (b3.trans hj)
  unfold binaryResolversList
  rw [c1, c2]
  exact ⟨by rw [b1], b2⟩

/-! ## C6: the two-phase join -/

/-- C6 (amended). Starting from a controller that has just been constructed and
has loaded the persisted states, for both orders of delivery of the archive
listing and the binary listing: the first completion emits no
`resolversLoaded`, the second emits exactly one, as its last effect, and the
registry it carries consists, up to the rating overlay, of every package of the
archive listing and of those packages of the binary listing whose `typeid`
attribute is not empty and equals the platform of the build. -/
theorem listing_join (cfg : Config) (fs : FileSystem) (accounts : List Account)
    (persisted : StateHash) (archive binary : List Content) :
    ((resolversList cfg (World.started fs accounts persisted) archive).trace.filter
        Effect.isResolversLoaded = []
      ∧ (binaryResolversList cfg
          (resolversList cfg (World.started fs accounts persisted) archive) binary).trace.filter
          Effect.isResolversLoaded
        = [Effect.resolversLoaded (binaryResolversList cfg
            (resolversList cfg (World.started fs accounts persisted) archive) binary).m_resolvers]
      ∧ (binaryResolversList cfg
          (resolversList cfg (World.started fs accounts persisted) archive) binary).trace.getLast?
        = some (Effect.resolversLoaded (binaryResolversList cfg
            (resolversList cfg (World.started fs accounts persisted) archive) binary).m_resolvers)
      ∧ (binaryResolversList cfg
          (resolversList cfg (World.started fs accounts persisted) archive) binary).m_resolvers.map
          (fun c => c.setRating 0)
        = (archive ++ binary.filter (isForPlatform cfg)).map (fun c => c.setRating 0))
    ∧ ((binaryResolversList cfg (World.started fs accounts persisted) binary).trace.filter
        Effect.isResolversLoaded = []
      ∧ (resolversList cfg
          (binaryResolversList cfg (World.started fs accounts persisted) binary) archive).trace.filter
          Effect.isResolversLoaded
        = [Effect.resolversLoaded (resolversList cfg
            (binaryResolversList cfg (World.started fs accounts persisted) binary) archive).m_resolvers]
      ∧ (resolversList cfg
          (binaryResolversList cfg (World.started fs accounts persisted) binary) archive).trace.getLast?
        = some (Effect.resolversLoaded (resolversList cfg
            (binaryResolversList cfg (World.started fs accounts persisted) binary) archive).m_resolvers)
      ∧ (resolversList cfg
          (binaryResolversList cfg (World.started fs accounts persisted) binary) archive).m_resolvers.map
          (fun c => c.setRating 0)
        = (binary.filter (isForPlatform cfg) ++ archive).map (fun c => c.setRating 0)) := by
  have h0 : (World.started fs accounts persisted).m_resolverJobsLoaded = 0 := rfl
  have ht : (World.started fs accounts persisted).trace.filter Effect.isResolversLoaded = [] := rfl
  have hr : (World.started fs accounts persisted).m_resolvers = [] := rfl
  constructor
  · obtain ⟨a1, a2, a3⟩ := resolversList_first cfg _ archive h0
    obtain ⟨b1, b2⟩ := binaryResolversList_second cfg _ binary a3
    refine ⟨a1.trans ht, ?_, ?_, ?_⟩
    · rw [b1, List.filter_append, a1, ht]
      simp [Effect.isResolversLoaded]
    · rw [b1]; simp
    · rw [b2, List.map_append, a2, hr]
      simp
  · obtain ⟨a1, a2, a3⟩ := binaryResolversList_first cfg _ binary h0
    obtain ⟨b1, b2, b3⟩ := resolversList_second cfg _ archive a3
    refine ⟨by rw [a1]; exact ht, ?_, b2, ?_⟩
    · rw [b1, a1, ht]; simp
    · rw [b3, a2, hr]; simp

/-- C6 as stated fails: on an OS X build the binary listing holds a Windows
package, and after both completions, in either order, the registry carried by
`resolversLoaded` has no entry with the id of that package. -/
theorem listing_join_drops_other_platform :
    Example.spotifyWin ∈ [Example.spotifyOsx, Example.spotifyWin]
      ∧ (binaryResolversList Example.cfg
          (resolversList Example.cfg (World.started Example.emptyDisk [] [])
            [Example.p1, Example.p2])
          [Example.spotifyOsx, Example.spotifyWin]).trace
        = [Effect.requestCategories,
           Effect.resolversLoaded [Example.p1, Example.p2, Example.spotifyOsx]]
      ∧ (resolversList Example.cfg
          (binaryResolversList Example.cfg (World.started Example.emptyDisk [] [])
            [Example.spotifyOsx, Example.spotifyWin])
          [Example.p1, Example.p2]).trace
        = [Effect.requestCategories,
           Effect.resolversLoaded [Example.spotifyOsx, Example.p1, Example.p2]]
      ∧ Example.spotifyWin.id ∉ [Example.p1, Example.p2, Example.spotifyOsx].map Content.id := by
  decide

/-! ## C7: a failed link request -/

/-- C7. For a package with a non-empty id whose recorded state is not
Upgrading, `installResolver` returns a world in which the state is Installing,
and if the link request then completes with an error,
`resolverDownloadFinished` returns that world unchanged: the state map is the
same (the state stays Installing), the trace is the same (no `installed`, no
`state changed`, no payload download is started) and the disk is the same (no
directory is created). -/
theorem resolverDownloadFinished_failed (cfg : Config) (w : World) (resolver : Content)
    (autoCreateAccount : Bool) (job : DownloadJob)
    (hid : resolver.id ≠ "")
    (hst : (StateHash.value w.m_resolverStates resolver.id).state ≠ ResolverState.Upgrading)
    (hjob : job.failed = true) :
    ∃ w1, installResolver cfg w resolver autoCreateAccount = some w1
      ∧ (StateHash.value w1.m_resolverStates resolver.id).state = ResolverState.Installing
      ∧ resolverDownloadFinished w1 job = w1
      ∧ (resolverDownloadFinished w1 job).m_resolverStates = w1.m_resolverStates
      ∧ (StateHash.value (resolverDownloadFinished w1 job).m_resolverStates resolver.id).state
          = ResolverState.Installing
      ∧ (resolverDownloadFinished w1 job).trace = w1.trace
      ∧ (resolverDownloadFinished w1 job).fs = w.fs := by
  obtain ⟨w1, h1, h2, _, _, _, _, _, h8, _⟩ :=
    installResolver_spec cfg w resolver autoCreateAccount hid
  rw [if_neg hst] at h2
  have hsame : resolverDownloadFinished w1 job = w1 := by
    simp [resolverDownloadFinished, hjob]
  refine ⟨w1, h1, h2, hsame, ?_, ?_, ?_, ?_⟩
  · rw [hsame]
  · rw [hsame]; exact h2
  · rw [hsame]
  · rw [hsame]; exact h8

theorem resolverDownloadFinished_failed_witness :
    (Example.p2.id ≠ ""
      ∧ (StateHash.value Example.fresh.m_resolverStates Example.p2.id).state
          ≠ ResolverState.Upgrading
      ∧ Example.linkFailed.failed = true)
    ∧ ∃ w1, installResolver Example.cfg Example.fresh Example.p2 true = some w1
      ∧ (StateHash.value w1.m_resolverStates Example.p2.id).state = ResolverState.Installing
      ∧ resolverDownloadFinished w1 Example.linkFailed = w1
      ∧ (resolverDownloadFinished w1 Example.linkFailed).m_resolverStates = w1.m_resolverStates
      ∧ (StateHash.value (resolverDownloadFinished w1 Example.linkFailed).m_resolverStates
          Example.p2.id).state = ResolverState.Installing
      ∧ (resolverDownloadFinished w1 Example.linkFailed).trace = w1.trace
      ∧ (resolverDownloadFinished w1 Example.linkFailed).fs = Example.fresh.fs :=
  ⟨by decide,
   resolverDownloadFinished_failed Example.cfg Example.fresh Example.p2 true Example.linkFailed
     (by decide) (by decide) (by decide)⟩

/-! ## C8: the payload handler -/

/-- C8 (amended). When the payload download succeeded, the temporary file was
opened and `extractPayload` returned the destination directory,
`payloadFetched` rewrites the script path to the path below that directory,
sets the state to Installed, persists the state map and emits `installed` and
`state changed`; it does not look at the extracted files, so this also happens
when the script file is absent. -/
theorem payloadFetched_installs (cfg : Config) (w : World) (reply : PayloadReply)
    (hf : reply.failed = false) (ht : reply.tempFileOpens = true)
    (hex : (extractPayload cfg w.fs reply.archive reply.resolverId).2.1 ≠ "") :
    (StateHash.value (payloadFetched cfg w reply).m_resolverStates reply.resolverId).state
        = ResolverState.Installed
      ∧ (StateHash.value (payloadFetched cfg w reply).m_resolverStates
          reply.resolverId).scriptPath
        = absoluteFilePath (extractPayload cfg w.fs reply.archive reply.resolverId).2.1
            (StateHash.value w.m_resolverStates reply.resolverId).scriptPath
      ∧ (payloadFetched cfg w reply).fs
        = (extractPayload cfg w.fs reply.archive reply.resolverId).1
      ∧ (payloadFetched cfg w reply).trace
        = w.trace
          ++ (if reply.createAccount = true then
                [Effect.addAccount (cfg.createFromPath
                    (absoluteFilePath
                      (extractPayload cfg w.fs reply.archive reply.resolverId).2.1
                      (StateHash.value w.m_resolverStates reply.resolverId).scriptPath)),
                 Effect.settingsAddAccount (cfg.createFromPath
                    (absoluteFilePath
                      (extractPayload cfg w.fs reply.archive reply.resolverId).2.1
                      (StateHash.value w.m_resolverStates
                        reply.resolverId).scriptPath)).accountId]
              else [])
          ++ [Effect.setAtticaResolverStates (payloadFetched cfg w reply).m_resolverStates,
              Effect.resolverInstalled reply.resolverId,
              Effect.resolverStateChanged reply.resolverId] := by
  have hq : qdirAbsolutePath cfg (extractPayload cfg w.fs reply.archive reply.resolverId).2.1
      = (extractPayload cfg w.fs reply.archive reply.resolverId).2.1 := by
    simp [qdirAbsolutePath, hex]
  have hne := absoluteFilePath_ne_empty
    (extractPayload cfg w.fs reply.archive reply.resolverId).2.1
    (StateHash.value w.m_resolverStates reply.resolverId).scriptPath hex
  have hs := payloadFetched_states cfg w reply hf ht
  rw [hq] at hs
  refine ⟨?_, ?_, ?_, ?_⟩
  · rw [hs]; simp [StateHash.value_modify]
  · rw [hs]; simp [StateHash.value_modify]
  · unfold payloadFetched
    simp only [hf, ht, if_true, StateHash.value_touch, hq]
    simp [hne]
  · unfold payloadFetched
    simp only [hf, ht, if_true, StateHash.value_touch, hq]
    simp [hne]

theorem payloadFetched_installs_witness :
    (Example.payloadNoScript.failed = false ∧ Example.payloadNoScript.tempFileOpens = true
      ∧ (extractPayload Example.cfg Example.installingP2.fs Example.payloadNoScript.archive
          Example.payloadNoScript.resolverId).2.1 ≠ "")
    ∧ (StateHash.value
        (payloadFetched Example.cfg Example.installingP2 Example.payloadNoScript).m_resolverStates
        Example.payloadNoScript.resolverId).state = ResolverState.Installed :=
  ⟨by decide,
   (payloadFetched_installs Example.cfg Example.installingP2 Example.payloadNoScript
     (by decide) (by decide) (by decide)).1⟩

/-- C8 as stated fails: `p2` is Installing with script `main.js`; its archive
unpacks into the package directory but holds no `main.js`.  After
`payloadFetched` the script file is absent, yet the state is Installed and
`installed` was emitted. -/
theorem payloadFetched_ignores_missing_script :
    (StateHash.value Example.installingP2.m_resolverStates "p2").state
        = ResolverState.Installing
      ∧ (extractPayload Example.cfg Example.installingP2.fs Example.payloadNoScript.archive
          "p2").2.1 = "/home/u/tomahawk/atticaresolvers/p2"
      ∧ (StateHash.value
          (payloadFetched Example.cfg Example.installingP2
            Example.payloadNoScript).m_resolverStates "p2").scriptPath
        = "/home/u/tomahawk/atticaresolvers/p2/main.js"
      ∧ FileSystem.node
          (payloadFetched Example.cfg Example.installingP2 Example.payloadNoScript).fs
          ["home", "u", "tomahawk", "atticaresolvers", "p2", "main.js"] = none
      ∧ (StateHash.value
          (payloadFetched Example.cfg Example.installingP2
            Example.payloadNoScript).m_resolverStates "p2").state
        = ResolverState.Installed
      ∧ Effect.resolverInstalled "p2"
        ∈ (payloadFetched Example.cfg Example.installingP2 Example.payloadNoScript).trace := by
  decide

/-- The emptiness test on the resolver path in `payloadFetched` never fails:
whenever the download succeeded and the temporary file was opened the state
becomes Installed, whatever `extractPayload` returned. -/
theorem payloadFetched_always_installs (cfg : Config) (w : World) (reply : PayloadReply)
    (hf : reply.failed = false) (ht : reply.tempFileOpens = true) :
    (StateHash.value (payloadFetched cfg w reply).m_resolverStates reply.resolverId).state
      = ResolverState.Installed := by
  rw [payloadFetched_states cfg w reply hf ht]
  simp [StateHash.value_modify]

/-- An archive that QuaZip cannot open: `extractPayload` returns the empty
string, the resolver path is taken below the working directory of the process,
and `p2` is marked Installed all the same. -/
theorem payloadFetched_after_failed_extraction :
    (extractPayload Example.cfg Example.installingP2.fs none "p2").2.1 = ""
      ∧ (StateHash.value
          (payloadFetched Example.cfg Example.installingP2
            Example.payloadBroken).m_resolverStates "p2").scriptPath = "/home/u/main.js"
      ∧ (StateHash.value
          (payloadFetched Example.cfg Example.installingP2
            Example.payloadBroken).m_resolverStates "p2").state = ResolverState.Installed := by
  decide

/-! ## Lemmas on the file system -/

/-- The scenario of the spec: the archive with `assets/icon.png` and `main.js`
yields both files at their relative paths below the package directory, and the
directory `assets`. -/
theorem extractPayload_assets_scenario :
    (extractPayload Example.cfg Example.emptyDisk (some Example.archiveAssets) "p1").2.1
        = "/home/u/tomahawk/atticaresolvers/p1"
      ∧ FileSystem.node
          (extractPayload Example.cfg Example.emptyDisk (some Example.archiveAssets) "p1").1
          ["home", "u", "tomahawk", "atticaresolvers", "p1", "assets", "icon.png"]
        = some (Node.file [137, 80, 78, 71])
      ∧ FileSystem.node
          (extractPayload Example.cfg Example.emptyDisk (some Example.archiveAssets) "p1").1
          ["home", "u", "tomahawk", "atticaresolvers", "p1", "main.js"]
        = some (Node.file [47, 47])
      ∧ FileSystem.node
          (extractPayload Example.cfg Example.emptyDisk (some Example.archiveAssets) "p1").1
          ["home", "u", "tomahawk", "atticaresolvers", "p1", "assets"]
        = some Node.dir := by
  decide

theorem StateHash.insert_insert (h : StateHash) (id : String) (r : Resolver) :
    StateHash.insert (StateHash.insert h id r) id r = StateHash.insert h id r := by
  induction h with
  | nil => simp [StateHash.insert]
  | cons e rest ih =>
    obtain ⟨k0, r0⟩ := e
    by_cases h0 : k0 = id
    · simp [StateHash.insert, h0]
    · simp [StateHash.insert, h0, ih]

theorem setFirstRating_idem (id : String) (v : Int) (l : List Content) :
    setFirstRating id v (setFirstRating id v l) = setFirstRating id v l := by
  induction l with
  | nil => rfl
  | cons x xs ih =>
    by_cases hx : x.id = id
    · simp [setFirstRating, hx, Content.setRating]
    · simp [setFirstRating, hx, ih]

theorem setFirstRating_find (id : String) (v : Int) (l : List Content) :
    ((setFirstRating id v l).find? (fun x => decide (x.id = id))).map Content.rating
      = (l.find? (fun x => decide (x.id = id))).map (fun _ => v) := by
  induction l with
  | nil => rfl
  | cons x xs ih =>
    by_cases hx : x.id = id
    · simp [setFirstRating, hx, Content.setRating]
    · simp [setFirstRating, hx, ih]

/-- C10. For every package, rating value and prior world, a second call of
`uploadRating` with the same package leaves the state map and the registry as
the first call made them; after a call the user rating of the package is the
value and the first registry entry of the package, if there is one, carries the
value; and each single call appends exactly one persisted write of the state
map, one rating submission and one `state changed` for the package to the
trace, touching neither the disk nor the accounts. -/
theorem uploadRating_idempotent (w : World) (c : Content) :
    (uploadRating (uploadRating w c) c).m_resolverStates = (uploadRating w c).m_resolverStates
      ∧ (uploadRating (uploadRating w c) c).m_resolvers = (uploadRating w c).m_resolvers
      ∧ (StateHash.value (uploadRating w c).m_resolverStates c.id).userRating = c.rating
      ∧ ((uploadRating w c).m_resolvers.find? (fun x => decide (x.id = c.id))).map Content.rating
        = (w.m_resolvers.find? (fun x => decide (x.id = c.id))).map (fun _ => c.rating)
      ∧ (uploadRating w c).trace
        = w.trace ++ [Effect.setAtticaResolverStates (uploadRating w c).m_resolverStates,
            Effect.voteForContent c.id (toUInt c.rating),
            Effect.resolverStateChanged c.id]
      ∧ (uploadRating (uploadRating w c) c).trace
        = (uploadRating w c).trace
          ++ [Effect.setAtticaResolverStates (uploadRating w c).m_resolverStates,
              Effect.voteForContent c.id (toUInt c.rating),
              Effect.resolverStateChanged c.id]
      ∧ (uploadRating w c).fs = w.fs ∧ (uploadRating w c).accounts = w.accounts := by
  have hs : (uploadRating (uploadRating w c) c).m_resolverStates
      = (uploadRating w c).m_resolverStates := by
    simp only [uploadRating, StateHash.modify, StateHash.value_insert, if_true]
    exact StateHash.insert_insert _ _ _
  refine ⟨hs, ?_, ?_, ?_, rfl, ?_, rfl, rfl⟩
  · simp only [uploadRating]
    exact setFirstRating_idem _ _ _
  · simp [uploadRating, StateHash.value_modify]
  · simp only [uploadRating]
    exact setFirstRating_find _ _ _
  · have : (uploadRating (uploadRating w c) c).trace
        = (uploadRating w c).trace
          ++ [Effect.setAtticaResolverStates (uploadRating (uploadRating w c) c).m_resolverStates,
              Effect.voteForContent c.id (toUInt c.rating),
              Effect.resolverStateChanged c.id] := rfl
    rw [this, hs]

/-! ## C11: the order of the two listing completions -/

/-- C11. The code breaks the claim.  The binary package `spotify-osx` is
persisted as Installed at version 0.8 with user rating 4, and the binary listing
offers it at version 0.9 with rating 5.  When the archive listing is handled
first, the version pass runs before the binary package is in the registry: its
registry rating stays 5, its state stays Installed and no upgrade is queued.
When the binary listing is handled first, the version pass sees it: the rating
becomes 4, the state NeedsUpgrade and an upgrade is queued.  So neither the
registry (as a set of packages with ratings) nor the state map is the same in
the two orders. -/
theorem listing_order_changes_result :
    (resolverForId
        (joinArchiveFirst Example.cfg Example.startedRated [Example.p1] [Example.spotifyOsx])
        "spotify-osx").rating = 5
      ∧ (resolverForId
          (joinBinaryFirst Example.cfg Example.startedRated [Example.p1] [Example.spotifyOsx])
          "spotify-osx").rating = 4
      ∧ (StateHash.value
          (joinArchiveFirst Example.cfg Example.startedRated [Example.p1]
            [Example.spotifyOsx]).m_resolverStates "spotify-osx").state
        = ResolverState.Installed
      ∧ (StateHash.value
          (joinBinaryFirst Example.cfg Example.startedRated [Example.p1]
            [Example.spotifyOsx]).m_resolverStates "spotify-osx").state
        = ResolverState.NeedsUpgrade
      ∧ Effect.queueUpgradeResolver (Example.spotifyOsx.setRating 4)
        ∉ (joinArchiveFirst Example.cfg Example.startedRated [Example.p1]
            [Example.spotifyOsx]).trace
      ∧ Effect.queueUpgradeResolver (Example.spotifyOsx.setRating 4)
        ∈ (joinBinaryFirst Example.cfg Example.startedRated [Example.p1]
            [Example.spotifyOsx]).trace
      ∧ ¬ (∀ c, c ∈ (joinArchiveFirst Example.cfg Example.startedRated [Example.p1]
                [Example.spotifyOsx]).m_resolvers
            ↔ c ∈ (joinBinaryFirst Example.cfg Example.startedRated [Example.p1]
                [Example.spotifyOsx]).m_resolvers)
      ∧ ¬ (∀ k, StateHash.value
              (joinArchiveFirst Example.cfg Example.startedRated [Example.p1]
                [Example.spotifyOsx]).m_resolverStates k
            = StateHash.value
              (joinBinaryFirst Example.cfg Example.startedRated [Example.p1]
                [Example.spotifyOsx]).m_resolverStates k) := by
  refine ⟨by decide, by decide, by decide, by decide, by decide, by decide, ?_, ?_⟩
  · intro h
    have h1 : Example.spotifyOsx
        ∈ (joinArchiveFirst Example.cfg Example.startedRated [Example.p1]
            [Example.spotifyOsx]).m_resolvers := by decide
    have h2 : Example.spotifyOsx
        ∉ (joinBinaryFirst Example.cfg Example.startedRated [Example.p1]
            [Example.spotifyOsx]).m_resolvers := by decide
    exact h2 ((h Example.spotifyOsx).1 h1)
  · intro h
    have h1 : StateHash.value
        (joinArchiveFirst Example.cfg Example.startedRated [Example.p1]
          [Example.spotifyOsx]).m_resolverStates "spotify-osx"
        ≠ StateHash.value
          (joinBinaryFirst Example.cfg Example.startedRated [Example.p1]
            [Example.spotifyOsx]).m_resolverStates "spotify-osx" := by decide
    exact h1 (h "spotify-osx")

/-! ## C12: where extraction writes -/

/-- C12. The code breaks the claim.  Package `p2` is installed with script
bytes `[5]`.  Extracting for `p1` an archive with the entry names
`../p2/main.js`, `../p3/lib/x.js` and `/home/u/evil.sh` opens three files for
writing that are not below the directory of `p1`: the script of `p2` is
overwritten, the directories `p3` and `p3/lib` are created beside the package
directory, and a file is created in the home directory. -/
theorem extractPayload_escapes_directory :
    resolverDir Example.cfg "p1" = ["home", "u", "tomahawk", "atticaresolvers", "p1"]
      ∧ (extractPayload Example.cfg Example.diskWithP2 (some Example.archiveEscaping) "p1").2.2
        = [some ["home", "u", "tomahawk", "atticaresolvers", "p1", "main.js"],
           some ["home", "u", "tomahawk", "atticaresolvers", "p2", "main.js"],
           some ["home", "u", "tomahawk", "atticaresolvers", "p3", "lib", "x.js"],
           some ["home", "u", "evil.sh"]]
      ∧ (resolverDir Example.cfg "p1").isPrefixOf
          ["home", "u", "tomahawk", "atticaresolvers", "p2", "main.js"] = false
      ∧ (resolverDir Example.cfg "p1").isPrefixOf
          ["home", "u", "tomahawk", "atticaresolvers", "p3", "lib", "x.js"] = false
      ∧ (resolverDir Example.cfg "p1").isPrefixOf ["home", "u", "evil.sh"] = false
      ∧ FileSystem.node Example.diskWithP2
          ["home", "u", "tomahawk", "atticaresolvers", "p2", "main.js"]
        = some (Node.file [5])
      ∧ FileSystem.node
          (extractPayload Example.cfg Example.diskWithP2 (some Example.archiveEscaping) "p1").1
          ["home", "u", "tomahawk", "atticaresolvers", "p2", "main.js"]
        = some (Node.file [6, 6, 6])
      ∧ FileSystem.node Example.diskWithP2 ["home", "u", "tomahawk", "atticaresolvers", "p3"]
        = none
      ∧ FileSystem.node
          (extractPayload Example.cfg Example.diskWithP2 (some Example.archiveEscaping) "p1").1
          ["home", "u", "tomahawk", "atticaresolvers", "p3"]
        = some Node.dir
      ∧ FileSystem.node
          (extractPayload Example.cfg Example.diskWithP2 (some Example.archiveEscaping) "p1").1
          ["home", "u", "tomahawk", "atticaresolvers", "p3", "lib"]
        = some Node.dir
      ∧ FileSystem.node Example.diskWithP2 ["home", "u", "evil.sh"] = none
      ∧ FileSystem.node
          (extractPayload Example.cfg Example.diskWithP2 (some Example.archiveEscaping) "p1").1
          ["home", "u", "evil.sh"]
        = some (Node.file [8])
      ∧ ¬ (∀ t, some t
            ∈ (extractPayload Example.cfg Example.diskWithP2
                (some Example.archiveEscaping) "p1").2.2 →
          (resolverDir Example.cfg "p1").isPrefixOf t = true) := by
  refine ⟨by decide, by decide, by decide, by decide, by decide, by decide, by decide,
    by decide, by decide, by decide, by decide, by decide, ?_⟩
  intro h
  have h1 : some ["home", "u", "evil.sh"]
      ∈ (extractPayload Example.cfg Example.diskWithP2
          (some Example.archiveEscaping) "p1").2.2 := by decide
  have h2 : (resolverDir Example.cfg "p1").isPrefixOf ["home", "u", "evil.sh"] = false := by
    decide
  rw [h _ h1] at h2
  exact Bool.noConfusion h2

end Tomahawk
